import Mathlib

/-!
Shallow embedding of the organic-orm core (src/index.ts, src/helpers.ts):
the field/model registry, the WHERE-clause compiler, the Select/Update/Remove
query builders, bound-parameter sets, instances and relation accessors.

JavaScript runtime values appearing as field values are modelled by `JsVal`
(null and undefined are both `JsVal.null`; numbers are modelled as integers,
which covers every value the claims exercise).  `Math.random()`-based
placeholder generation is modelled by an explicit supply `Nat → Nat` consumed
with a monotone counter: entry `k` of the supply stands for
`Math.floor(Math.random() * 100000)` at the k-th draw.
-/

/-- JS runtime values used as field values / bound parameters. -/
inductive JsVal where
| null
| str (s : String)
| num (n : Int)
| bool (b : Bool)
deriving DecidableEq, Repr

/-- JS truthiness of a `JsVal` (`!!v`). -/
def JsVal.truthy : JsVal → Bool
| .null => false
| .str s => s ≠ ""
| .num n => n ≠ 0
| .bool b => b

/-- JS loose equality `v == null` (true exactly for null/undefined). -/
def JsVal.looseEqNull : JsVal → Bool
| .null => true
| _ => false

/-- JS string conversion as performed by template literals / `parts.join`. -/
def JsVal.jsToString : JsVal → String
| .null => "null"
| .str s => s
| .num n => toString n
| .bool b => if b then "true" else "false"

/-- Model of JS `String.prototype.startsWith`. -/
def jsStartsWith (s pre : String) : Bool :=
  pre.toList.isPrefixOf s.toList

/-- Model of JS `String.prototype.indexOf` for a single character. -/
def jsIndexOfChar (s : String) (c : Char) : Int :=
  match s.toList.findIdx? (· = c) with
  | some i => (i : Int)
  | none => -1

/-- Errors thrown by the core (each constructor stands for one `throw` site). -/
inductive OrmError where
| validation (field : String)
| unknownField (name : String)
| invalidFieldName (name : String)
| unknownRelation (name : String)
| unknownOperator (op : String)
| emptyInList
| valueUnderField
| modelMismatch
| instanceInvalid
| duplicateField (name : String)
| invalidName (name : String)
| multiplePrimaryKeys (model : String)
| removeWithoutCriteria
| invalidSortProp (name : String)
| genericError (msg : String)
deriving DecidableEq, Repr

/-- src/index.ts: `const ROWID = 'rowid'`. -/
def ROWID : String := "rowid"

/-- Field specification (`FieldSpec`); hooks are modelled as Lean functions. -/
structure FieldSpec where
  validate : Option (JsVal → Bool) := none
  serialize : Option (JsVal → JsVal) := none
  deserialize : Option (JsVal → JsVal) := none
  typeHint : Option String := none
  allowNull : Option Bool := none
  defaultValue : Option JsVal := none
  newGenerate : Option (JsVal → JsVal) := none
  unique : Option Bool := none
  primaryKey : Option Bool := none
  collation : Option String := none

/-- `FieldSpecWrapper`: a field name together with its spec. -/
structure FieldSpecWrapper where
  fieldName : String
  fieldSpec : FieldSpec

/-- `FieldSpecWrapper.convertToDatabaseForm`. -/
def FieldSpecWrapper.convertToDatabaseForm (fsw : FieldSpecWrapper) (value : JsVal) :
    Except OrmError JsVal :=
  if fsw.fieldSpec.allowNull ≠ some false ∧ value = JsVal.null then
    .ok JsVal.null
  else
    match fsw.fieldSpec.validate with
    | some f =>
      if f value then
        .ok (match fsw.fieldSpec.serialize with | some s => s value | none => value)
      else
        .error (.validation fsw.fieldName)
    | none => .ok (match fsw.fieldSpec.serialize with | some s => s value | none => value)

/-- `FieldSpecWrapper.convertFromDatabaseForm`. -/
def FieldSpecWrapper.convertFromDatabaseForm (fsw : FieldSpecWrapper) (value : JsVal) : JsVal :=
  match fsw.fieldSpec.deserialize with
  | some d => d value
  | none => value

/--
A model's identity-relevant data.  `id` stands for JS object identity:
the source compares model objects with `!==`, which we model as comparison of
these identifiers (distinct model objects get distinct ids).
-/
structure ModelCore where
  id : Nat
  name : String
  fields : List FieldSpecWrapper

/-- `Model.getPrimaryKeyName`: first primary-flagged field, else `ROWID`. -/
def ModelCore.getPrimaryKeyName (m : ModelCore) : String :=
  match m.fields.find? (fun fsw => fsw.fieldSpec.primaryKey = some true) with
  | some fsw => fsw.fieldName
  | none => ROWID

/-- `Model.getFieldWrapper`. -/
def ModelCore.getFieldWrapper (m : ModelCore) (name : String) : Option FieldSpecWrapper :=
  m.fields.find? (fun fsw => fsw.fieldName = name)

/-- `Model.getFieldWrapperChecked`. -/
def ModelCore.getFieldWrapperChecked (m : ModelCore) (name : String) :
    Except OrmError FieldSpecWrapper :=
  match m.getFieldWrapper name with
  | some fsw => .ok fsw
  | none => .error (.unknownField name)

/-- src/helpers.ts `isAlphaCode` (char codes of a-z and A-Z). -/
def isAlphaCode (ch : Nat) : Bool :=
  (97 ≤ ch && ch ≤ 122) || (65 ≤ ch && ch ≤ 90)

/-- src/helpers.ts `isDigitCode`. -/
def isDigitCode (ch : Nat) : Bool :=
  48 ≤ ch && ch ≤ 57

/-- src/index.ts `isValidName`: first char must satisfy `isAlphaCode`, the rest
may additionally be digits or underscore (char code 95). -/
def isValidName (name : String) : Bool :=
  match name.toList.map Char.toNat with
  | [] => false
  | c :: rest =>
    isAlphaCode c && rest.all (fun ch => isAlphaCode ch || isDigitCode ch || ch == 95)

/-- `RelationType` enum. -/
inductive RelationType where
| OneToOne
| ManyToOne
| OneToMany
| ManyToMany
deriving DecidableEq, Repr

/-- `SortOrder` enum. -/
inductive SortOrder where
| Asc
| Desc
deriving DecidableEq, Repr

/-- `SortProp`. -/
structure SortProp where
  by_ : String
  order : Option SortOrder := none
  caseSensitive : Option Bool := none

/--
`RelationFieldData` hierarchy: one constructor per concrete subclass
(`SingleRelationFieldData`, `ManyRelationFieldData`, `MultiRelationFieldData`).
Participant models are stored as `ModelCore` (the parts of a `Model` the
relation code reads), breaking the object-graph cycle of the source.
-/
inductive RelationData where
| single (name : String) (rtype : RelationType) (model companionModel : ModelCore)
    (isLeft : Bool) (foreignKey : String)
| many (name : String) (rtype : RelationType) (model companionModel : ModelCore)
    (isLeft : Bool) (foreignKey : String)
| multi (name : String) (rtype : RelationType) (model companionModel : ModelCore)
    (isLeft : Bool) (relationModel : ModelCore) (leftForeignKey rightForeignKey : String)

def RelationData.name : RelationData → String
| .single n _ _ _ _ _ => n
| .many n _ _ _ _ _ => n
| .multi n _ _ _ _ _ _ _ => n

def RelationData.rtype : RelationData → RelationType
| .single _ t _ _ _ _ => t
| .many _ t _ _ _ _ => t
| .multi _ t _ _ _ _ _ _ => t

def RelationData.companionModel : RelationData → ModelCore
| .single _ _ _ c _ _ => c
| .many _ _ _ c _ _ => c
| .multi _ _ _ c _ _ _ _ => c

/-- `resultsInMany`: false for Single, true for Many and Multi. -/
def RelationData.resultsInMany : RelationData → Bool
| .single _ _ _ _ _ _ => false
| .many _ _ _ _ _ _ => true
| .multi _ _ _ _ _ _ _ _ => true

/-- `SingleRelationFieldData.isCompanion`. -/
def RelationData.isCompanion : RelationData → Bool
| .single _ t _ _ isLeft _ => t = RelationType.OneToOne && !isLeft
| _ => false

/-- `MultiRelationFieldData.myForeignKey`. -/
def RelationData.myForeignKey : RelationData → String
| .multi _ _ _ _ isLeft _ lfk rfk => if isLeft then lfk else rfk
| _ => ""

/-- `MultiRelationFieldData.otherForeignKey`. -/
def RelationData.otherForeignKey : RelationData → String
| .multi _ _ _ _ isLeft _ lfk rfk => if isLeft then rfk else lfk
| _ => ""

/--
`RelationFieldData.getJoinCondition` for all three subclasses.  The source's
reference comparisons (`model !== this.model` etc.) are modelled as comparisons
of the `ModelCore.id` identity tags.
-/
def RelationData.getJoinCondition (rd : RelationData) (model : ModelCore)
    (companionAlias : String) (joinModel : ModelCore) : Except OrmError String :=
  match rd with
  | .single _ _ m c _ foreignKey =>
    if model.id ≠ m.id ∨ joinModel.id ≠ c.id then
      .error .modelMismatch
    else
      let companionPk := c.getPrimaryKeyName
      if !rd.isCompanion then
        .ok (companionAlias ++ "." ++ companionPk ++ " = " ++ m.name ++ "." ++ foreignKey)
      else
        .ok (companionAlias ++ "." ++ foreignKey ++ " = " ++ m.name ++ "." ++ m.getPrimaryKeyName)
  | .many _ _ m c _ foreignKey =>
    if model.id ≠ m.id ∨ joinModel.id ≠ c.id then
      .error .modelMismatch
    else
      .ok (companionAlias ++ "." ++ foreignKey ++ " = " ++ m.name ++ "." ++ m.getPrimaryKeyName)
  | .multi _ _ m c _ relationModel _ _ =>
    if joinModel.id ≠ relationModel.id ∧ joinModel.id ≠ c.id then
      .error .modelMismatch
    else if model.id = m.id then
      if joinModel.id = relationModel.id then
        .ok (companionAlias ++ "." ++ rd.myForeignKey ++ " = " ++ m.name ++ "." ++ m.getPrimaryKeyName)
      else if joinModel.id = c.id then
        .ok (companionAlias ++ "." ++ c.getPrimaryKeyName ++ " IN (SELECT " ++ rd.otherForeignKey
          ++ " FROM " ++ relationModel.name ++ " WHERE " ++ rd.myForeignKey ++ " = "
          ++ m.name ++ "." ++ m.getPrimaryKeyName ++ ")")
      else
        .error .modelMismatch
    else if model.id = relationModel.id ∧ joinModel.id = c.id then
      .ok (companionAlias ++ "." ++ c.getPrimaryKeyName ++ " = " ++ relationModel.name ++ "."
        ++ rd.otherForeignKey)
    else
      .error .modelMismatch

/-- The full `Model`: identity-relevant core plus relation edges, raw
constraints and options used by the query builders. -/
structure Model where
  core : ModelCore
  relationFields : List RelationData
  modelConstraints : List String
  defaultSorting : Option SortProp

/-- `Model.getRelationFieldData`. -/
def Model.getRelationFieldData (m : Model) (name : String) : Option RelationData :=
  m.relationFields.find? (fun rd => rd.name = name)

/-- `Model.addField`: name-grammar check, duplicate check, then store. -/
def Model.addField (m : Model) (fieldName : String) (fieldSpec : FieldSpec) :
    Except OrmError Model :=
  if !isValidName fieldName then
    .error (.invalidName fieldName)
  else if (m.core.fields.find? (fun fsw => fsw.fieldName = fieldName)).isSome then
    .error (.duplicateField fieldName)
  else
    .ok { m with core := { m.core with
            fields := m.core.fields ++ [⟨fieldName, fieldSpec⟩] } }

/--
`SqlBoundParams._bound` modelled as an insertion-ordered association list with
JS object-assignment semantics: setting an existing key overwrites in place,
setting a fresh key appends.
-/
def objSet (l : List (String × JsVal)) (k : String) (v : JsVal) : List (String × JsVal) :=
  if l.any (fun p => p.1 = k) then
    l.map (fun p => if p.1 = k then (k, v) else p)
  else
    l ++ [(k, v)]

/-- `SqlBoundParams.uniqueName` applied to one draw of
`Math.floor(Math.random() * 100000)`. -/
def sqlUniqueName (draw : Nat) : String :=
  "uniq_" ++ toString draw

structure SqlBoundParams where
  bound : List (String × JsVal) := []

/-- `SqlBoundParams.bind` with the random draw made explicit: returns the
placeholder (`:name`) and the updated parameter set. -/
def SqlBoundParams.bind (p : SqlBoundParams) (draw : Nat) (value : JsVal) :
    String × SqlBoundParams :=
  let bindingName := sqlUniqueName draw
  (":" ++ bindingName, ⟨objSet p.bound bindingName value⟩)

/-- `SqlBoundParams.merge` (`Object.assign` over the other set's entries). -/
def SqlBoundParams.merge (p another : SqlBoundParams) : SqlBoundParams :=
  ⟨another.bound.foldl (fun acc kv => objSet acc kv.1 kv.2) p.bound⟩

/-- `SqlBoundParams.count` (`Object.keys(this._bound).length`). -/
def SqlBoundParams.count (p : SqlBoundParams) : Nat :=
  p.bound.length

/-- `JoinType` enum. -/
inductive JoinType where
| Inner
| Left
deriving DecidableEq, Repr

def JoinType.toStr : JoinType → String
| .Inner => "INNER"
| .Left => "LEFT"

/-- `ParsedJoin` (field `alias` of the source is `alias_` here). -/
structure ParsedJoin where
  joinType : JoinType
  sourceTable : String
  selectWhere : Option String := none
  alias_ : String
  condition : String

/-- `ParsedJoin.make`. -/
def ParsedJoin.make (j : ParsedJoin) : String :=
  let aliasStr := if j.alias_ ≠ "" then "AS " ++ j.alias_ else ""
  let source := match j.selectWhere with
    | none => j.sourceTable
    | some w => "SELECT * FROM " ++ j.sourceTable ++ " WHERE " ++ w
  j.joinType.toStr ++ " JOIN " ++ source ++ " " ++ aliasStr ++ " ON " ++ j.condition

/-- `WhereTreeContext`. -/
inductive WTContext where
| Logical
| Value
deriving DecidableEq, Repr

/-- `Array.prototype.join(sep)` / `parts.join(sep)`. -/
def joinWith (sep : String) : List String → String
| [] => ""
| [x] => x
| x :: rest => x ++ sep ++ joinWith sep rest

/-- JS `String.prototype.toLowerCase`, over the character list. -/
def jsToLowerCase (s : String) : String :=
  (s.toList.map Char.toLower).asString

/-- JS `String.prototype.toUpperCase`, over the character list. -/
def jsToUpperCase (s : String) : String :=
  (s.toList.map Char.toUpper).asString

mutual
/--
A `WhereTree` node after construction: contexts and closest-field markers only
steer construction, so the finished tree keeps just leaves (SQL fragments) and
internal nodes with their combining operator (`' AND '` / `' OR '`).
-/
inductive WTChild where
| leaf (s : String)
| sub (op : String) (children : WTList)

/-- The children list of a `WhereTree` node. -/
inductive WTList where
| nil
| cons (c : WTChild) (rest : WTList)
end

def WTList.length : WTList → Nat
| .nil => 0
| .cons _ rest => rest.length + 1

mutual
/-- `WhereTree.build`. -/
def WTChild.render : WTChild → String
| .leaf s => s
| .sub _ .nil => ""
| .sub _ (.cons c .nil) => WTChild.render c
| .sub op cs => joinWith op (renderParenList cs)

/-- Children of a multi-child node, each parenthesized
(`'(' + child + ')'` as in `WhereTree.build`). -/
def renderParenList : WTList → List String
| .nil => []
| .cons c rest => ("(" ++ WTChild.render c ++ ")") :: renderParenList rest
end

mutual
/--
A criteria object (`WhereCriterion` values): a scalar, a JS array of scalars,
or a nested object.  Plain JS objects are insertion-ordered key/value lists.
-/
inductive Crit where
| val (v : JsVal)
| arr (vs : List JsVal)
| obj (entries : CritEntries)

/-- The ordered key/value entries of a criteria object. -/
inductive CritEntries where
| nil
| cons (key : String) (value : Crit) (rest : CritEntries)
end

/-- Property lookup on a criteria object. -/
def critLookup (key : String) : CritEntries → Option Crit
| .nil => none
| .cons k v rest => if k = key then some v else critLookup key rest

/--
The mutable pieces of a `QueryBuilder` during one compilation:
`_bound` (with the random supply and its position), `_joins`, `_constraints`,
`_extraColumns`.  `none` versus `some` mirrors the source's `null` versus
array-valued fields.
-/
structure QBState where
  bound : List (String × JsVal)
  supply : Nat → Nat
  ctr : Nat
  joins : Option (List ParsedJoin)
  constraints : Option (List String)
  extraColumns : Option (List String)

def QBState.init (supply : Nat → Nat) : QBState :=
  ⟨[], supply, 0, none, none, none⟩

/-- `this._bound.bind(value)`: draw the next random name, store, return `:name`. -/
def QBState.bindParam (st : QBState) (value : JsVal) : String × QBState :=
  let (ph, p) := SqlBoundParams.bind ⟨st.bound⟩ (st.supply st.ctr) value
  (ph, { st with bound := p.bound, ctr := st.ctr + 1 })

/-- `QueryBuilder._addJoin`. -/
def QBState.addJoin (st : QBState) (jd : ParsedJoin) : QBState :=
  { st with joins := match st.joins with
      | none => some [jd]
      | some l => some (l ++ [jd]) }

/-- `QueryBuilder._addConstraint`. -/
def QBState.addConstraint (st : QBState) (c : String) : QBState :=
  { st with constraints := match st.constraints with
      | none => some [c]
      | some l => some (l ++ [c]) }

/-- `QueryBuilder._mappedOperators`. -/
def mappedOperators : List (String × String) :=
  [("$eq", "="), ("$like", "LIKE"), ("$gt", ">"), ("$lt", "<"),
   ("$gte", ">="), ("$lte", "<="), ("$ne", "<>"), ("$glob", "GLOB")]

def mappedOperatorsGet (op : String) : Option String :=
  (mappedOperators.find? (fun p => p.1 = op)).map (·.2)

/--
`QueryBuilder._attachColumn`: resolve a (possibly `relation$field`) name to a
field wrapper and a qualified column, adding a LEFT JOIN (and, for
row-multiplying relations, one GROUP BY constraint) on first use of a relation.
-/
def attachColumn (model : Model) (fieldName : String) (st : QBState) :
    Except OrmError (FieldSpecWrapper × String × QBState) :=
  let sindex := jsIndexOfChar fieldName '$'
  if sindex < 0 then
    match model.core.getFieldWrapperChecked fieldName with
    | .error e => .error e
    | .ok fsw => .ok (fsw, model.core.name ++ "." ++ fieldName, st)
  else if sindex = 0 then
    .error (.invalidFieldName fieldName)
  else
    let relationName := (fieldName.toList.take sindex.toNat).asString
    let relatedFieldName := (fieldName.toList.drop (sindex.toNat + 1)).asString
    if relationName = "" ∨ relatedFieldName = "" then
      .error (.invalidFieldName fieldName)
    else
      match model.getRelationFieldData relationName with
      | none => .error (.unknownRelation fieldName)
      | some relation =>
        let comp := relation.companionModel
        let resolved : Except OrmError (FieldSpecWrapper × ModelCore) :=
          match comp.getFieldWrapper relatedFieldName with
          | some f => .ok (f, comp)
          | none =>
            if relation.rtype = RelationType.ManyToMany then
              match relation with
              | .multi _ _ _ _ _ relationModel _ _ =>
                match relationModel.getFieldWrapper relatedFieldName with
                | some f => .ok (f, relationModel)
                | none => .error (.unknownField fieldName)
              | _ => .error (.genericError "relation model missing")
            else
              .error (.unknownField fieldName)
        match resolved with
        | .error e => .error e
        | .ok (field, relatedModel) =>
          let table := "__sa_" ++ relatedModel.name
          let alreadyJoined := match st.joins with
            | none => false
            | some js => js.any (fun x => x.alias_ = table)
          if alreadyJoined then
            .ok (field, table ++ "." ++ relatedFieldName, st)
          else
            match relation.getJoinCondition model.core table relatedModel with
            | .error e => .error e
            | .ok cond =>
              let st := st.addJoin
                { joinType := JoinType.Left, sourceTable := relatedModel.name,
                  selectWhere := none, alias_ := table, condition := cond }
              let st :=
                if relation.resultsInMany then
                  let hasGroupBy := match st.constraints with
                    | none => false
                    | some cs => cs.any (fun x => jsStartsWith (jsToUpperCase x) "GROUP BY")
                  if hasGroupBy then st
                  else st.addConstraint
                    ("GROUP BY " ++ model.core.name ++ "." ++ model.core.getPrimaryKeyName)
                else st
              .ok (field, table ++ "." ++ relatedFieldName, st)

/-- `QueryBuilder._buildMappedOperator`. -/
def buildMappedOperator (model : Model) (operator : String) (left : String) (right : JsVal)
    (st : QBState) : Except OrmError (WTChild × QBState) :=
  match attachColumn model left st with
  | .error e => .error e
  | .ok (fsw, column, st) =>
    match fsw.convertToDatabaseForm right with
    | .error e => .error e
    | .ok rightConv =>
      let (ph, st) := st.bindParam rightConv
      .ok (.leaf (column ++ " " ++ operator ++ " " ++ ph), st)

/-- Binding of the elements of an `$in`/`$notin` list, in order. -/
def bindInList (fsw : FieldSpecWrapper) : List JsVal → QBState →
    Except OrmError (List String × QBState)
| [], st => .ok ([], st)
| v :: rest, st =>
  match fsw.convertToDatabaseForm v with
  | .error e => .error e
  | .ok conv =>
    let (ph, st) := st.bindParam conv
    match bindInList fsw rest st with
    | .error e => .error e
    | .ok (phs, st) => .ok (ph :: phs, st)

/-- `QueryBuilder._buildOperator`. -/
def buildOperator (model : Model) (operator : String) (left : String) (right : Crit)
    (st : QBState) : Except OrmError (WTChild × QBState) :=
  match mappedOperatorsGet operator with
  | some sqlOp =>
    match right with
    | .val v => buildMappedOperator model sqlOp left v st
    | _ => .error (.genericError "operator value out of modelled universe")
  | none =>
    if operator = "$in" ∨ operator = "$notin" then
      match right with
      | .arr [] => .error .emptyInList
      | .arr [v] =>
        buildMappedOperator model (if operator = "$in" then "=" else "<>") left v st
      | .arr vs =>
        match attachColumn model left st with
        | .error e => .error e
        | .ok (fsw, column, st) =>
          match bindInList fsw vs st with
          | .error e => .error e
          | .ok (list, st) =>
            let mapped := if operator = "$in" then "IN" else "NOT IN"
            .ok (.leaf (column ++ " " ++ mapped ++ " (" ++ joinWith ", " list ++ ")"), st)
      | _ => .error .emptyInList
    else
      .error (.unknownOperator operator)

/-- `$and`/`$or` applied to a JS array: `Object.keys` yields the indices, each
treated as a plain field key with a scalar value at Logical context. -/
def buildArrFieldEntries (model : Model) : List JsVal → Nat → QBState →
    Except OrmError (WTList × QBState)
| [], _, st => .ok (.nil, st)
| v :: rest, i, st =>
  match buildMappedOperator model "=" (toString i) v st with
  | .error e => .error e
  | .ok (c, st) =>
    match buildArrFieldEntries model rest (i + 1) st with
    | .error e => .error e
    | .ok (cs, st) => .ok (.cons c cs, st)

mutual
/-- `QueryBuilder._buildWhereNode`: each successful call appends exactly one
child to the parent node; the child is returned instead of mutating. -/
def buildWhereNode (model : Model) (key : String) (value : Crit) (pctx : WTContext)
    (pfield : String) (st : QBState) : Except OrmError (WTChild × QBState) :=
  if jsStartsWith key "$" then
    let key := jsToLowerCase key
    match pctx with
    | .Logical =>
      if key = "$and" ∨ key = "$or" then
        let op := if key = "$and" then " AND " else " OR "
        match value with
        | .obj es =>
          match buildWhereEntries model es .Logical "" st with
          | .error e => .error e
          | .ok (cs, st) => .ok (.sub op cs, st)
        | .arr vs =>
          match buildArrFieldEntries model vs 0 st with
          | .error e => .error e
          | .ok (cs, st) => .ok (.sub op cs, st)
        | .val _ => .ok (.sub op .nil, st)
      else
        .error (.unknownOperator key)
    | .Value => buildOperator model key pfield value st
  else
    match pctx with
    | .Logical =>
      match value with
      | .obj es =>
        match buildWhereEntries model es .Value key st with
        | .error e => .error e
        | .ok (cs, st) => .ok (.sub " AND " cs, st)
      | .arr [] => .ok (.sub " AND " .nil, st)
      | .arr (_ :: _) => .error .valueUnderField
      | .val v => buildMappedOperator model "=" key v st
    | .Value => .error .valueUnderField

/-- `Object.keys(value).forEach(subKey =>
this._buildWhereNode(subKey, value[subKey], node))`. -/
def buildWhereEntries (model : Model) (es : CritEntries) (ctx : WTContext)
    (field : String) (st : QBState) : Except OrmError (WTList × QBState) :=
  match es with
  | .nil => .ok (.nil, st)
  | .cons k v rest =>
    match buildWhereNode model k v ctx field st with
    | .error e => .error e
    | .ok (c, st') =>
      match buildWhereEntries model rest ctx field st' with
      | .error e => .error e
      | .ok (cs, st'') => .ok (.cons c cs, st'')
end

/-- `QueryBuilder._buildWhere` applied to the whole criteria object, starting
from a fresh builder state. -/
def buildWhereTop (model : Model) (wc : CritEntries) (supply : Nat → Nat) :
    Except OrmError (WTList × QBState) :=
  buildWhereEntries model wc .Logical "" (QBState.init supply)

/-- `QueryBuilder._makeWhere`: render the global Logical/AND tree. -/
def makeWhere (children : WTList) : String :=
  let whereClause := WTChild.render (.sub " AND " children)
  if whereClause ≠ "" then "WHERE " ++ whereClause else ""

/-- `JoinOption`: the source stores a `Relation` accessor; the builder only
reads `relation.relationData` and the join type. -/
structure JoinOption where
  relationData : RelationData
  jtype : JoinType

/-- `FindOptions` (`where` is a Lean keyword, hence `where_`). -/
structure FindOptions where
  where_ : Option CritEntries := none
  limit : Option Int := none
  offset : Option Int := none
  fetchTotalCount : Option Bool := none
  sort : Option (List (Sum String SortProp)) := none
  join : Option (List JoinOption) := none

/-- `UpdateOptions`. -/
structure UpdateOptions where
  where_ : Option CritEntries := none
  set : List (String × JsVal)

/-- `RemoveOptions`. -/
structure RemoveOptions where
  where_ : Option CritEntries := none

/-- `QueryBuilder._makeColumnListForModel`. -/
def makeColumnListForModel (model : ModelCore) (pfx : Option String) : List String :=
  let columns := model.fields.map (fun fsw =>
    match pfx with
    | some p =>
      if p ≠ "" then
        let colName := p ++ "." ++ fsw.fieldName
        colName ++ " AS \"" ++ colName ++ "\""
      else fsw.fieldName
    | none => fsw.fieldName)
  if (model.fields.find? (fun x => x.fieldSpec.primaryKey = some true)).isNone then
    let colName := model.name ++ "." ++ ROWID
    columns ++ [colName ++ " AS \"" ++ colName ++ "\""]
  else
    columns

/-- `QueryBuilder._makeSort`. -/
def makeSort (by_ : String) (order : Option SortOrder) (caseSensitive : Option Bool) : String :=
  let collation := if caseSensitive = some true then "" else "COLLATE NOCASE"
  let sortOrder := if order = some SortOrder.Desc then "DESC" else "ASC"
  by_ ++ " " ++ collation ++ " " ++ sortOrder

/-- `Model.getFieldSpec`. -/
def Model.getFieldSpec (m : Model) (name : String) : Option FieldSpec :=
  (m.core.getFieldWrapper name).map (fun fsw => fsw.fieldSpec)

/-- `SelectQueryBuilder._buildConstraints`: LIMIT then OFFSET, when given. -/
def buildConstraints (options : FindOptions) (st : QBState) : QBState :=
  let st := match options.limit with
    | some l => st.addConstraint ("LIMIT " ++ toString l)
    | none => st
  match options.offset with
  | some o => st.addConstraint ("OFFSET " ++ toString o)
  | none => st

/-- One entry of `FindOptions.sort` rendered to an ORDER BY part. -/
def sortEntryToPart (model : Model) : Sum String SortProp → Except OrmError String
| .inl s =>
  if (model.getFieldSpec s).isNone then .error (.invalidSortProp s)
  else .ok (makeSort s (some SortOrder.Asc) (some false))
| .inr p =>
  if (model.getFieldSpec p.by_).isNone then .error (.invalidSortProp p.by_)
  else .ok (makeSort p.by_ p.order p.caseSensitive)

/-- `SelectQueryBuilder._buildSort`. -/
def buildSort (model : Model) (options : FindOptions) (st : QBState) :
    Except OrmError QBState :=
  let defSorting := model.defaultSorting
  let sortList := options.sort.getD []
  let explicitGiven := options.sort.isSome && !sortList.isEmpty
  let partsE : Except OrmError (List String) :=
    if explicitGiven then
      match sortList.mapM (sortEntryToPart model) with
      | .error e => .error e
      | .ok parts =>
        match defSorting with
        | some ds =>
          if !(sortList.any (fun x => match x with
              | .inl s => s = ds.by_
              | .inr p => p.by_ = ds.by_)) then
            if (model.getFieldSpec ds.by_).isNone then .error (.invalidSortProp ds.by_)
            else .ok (parts ++ [makeSort ds.by_ ds.order ds.caseSensitive])
          else .ok parts
        | none => .ok parts
    else .ok []
  match partsE with
  | .error e => .error e
  | .ok parts =>
    let parts := if parts.isEmpty then
        match defSorting with
        | some ds => [makeSort ds.by_ ds.order ds.caseSensitive]
        | none => parts
      else parts
    if !parts.isEmpty then
      .ok (st.addConstraint ("ORDER BY " ++ joinWith ", " parts))
    else
      .ok st

/-- `QueryBuilder` helper mirroring `_addExtraColumns(...col)`. -/
def QBState.addExtraColumns (st : QBState) (cols : List String) : QBState :=
  { st with extraColumns := match st.extraColumns with
      | none => some cols
      | some l => some (l ++ cols) }

/-- Body of the `_buildJoins` loop for one join option. -/
def addJoinOption (model : Model) (st : QBState) (jo : JoinOption) :
    Except OrmError QBState :=
  let rd := jo.relationData
  match rd.getJoinCondition model.core rd.name rd.companionModel with
  | .error e => .error e
  | .ok cond =>
    let st := st.addJoin
      { joinType := jo.jtype, sourceTable := rd.companionModel.name,
        selectWhere := none, alias_ := rd.name, condition := cond }
    .ok (st.addExtraColumns (makeColumnListForModel rd.companionModel (some rd.name)))

/-- `SelectQueryBuilder._buildJoins`. -/
def buildJoins (model : Model) (options : FindOptions) (st : QBState) :
    Except OrmError QBState :=
  match options.join with
  | none => .ok st
  | some js => js.foldlM (addJoinOption model) st

/-- Rendered `this._joins.map(x => x.make()).join(' ')` (empty for `null`). -/
def joinsStrOf (st : QBState) : String :=
  match st.joins with
  | none => ""
  | some js => joinWith " " (js.map ParsedJoin.make)

/-- The local values `_buildSelect` computes before assembling its queries. -/
structure SelectAssembly where
  columns : List String
  joinsStr : String
  whereStr : String
  constraints : Option (List String)
  bound : List (String × JsVal)

/-- `SelectQueryBuilder._buildSelect`, steps before string assembly:
`_buildWhere(); _buildConstraints(); _buildSort(); _buildJoins();` plus the
column list. -/
def selectPrep (model : Model) (options : FindOptions) (supply : Nat → Nat) :
    Except OrmError SelectAssembly :=
  match buildWhereTop model (options.where_.getD .nil) supply with
  | .error e => .error e
  | .ok (children, st) =>
    let st := buildConstraints options st
    match buildSort model options st with
    | .error e => .error e
    | .ok st =>
      match buildJoins model options st with
      | .error e => .error e
      | .ok st =>
        .ok { columns := makeColumnListForModel model.core (some model.core.name)
                          ++ st.extraColumns.getD [],
              joinsStr := joinsStrOf st,
              whereStr := makeWhere children,
              constraints := st.constraints,
              bound := st.bound }

/-- `BuiltSelectQuery`. -/
structure BuiltSelectQuery where
  selectQuery : String
  bound : List (String × JsVal)
  countQuery : Option String := none

/-- `SelectQueryBuilder._buildSelect`: assemble the select query and, when a
total count is requested, the COUNT(*) query with constraints filtered by
`!constr.startsWith('LIMIT')`. -/
def buildSelect (model : Model) (options : FindOptions) (supply : Nat → Nat) :
    Except OrmError BuiltSelectQuery :=
  match selectPrep model options supply with
  | .error e => .error e
  | .ok a =>
    let constraintsStr := match a.constraints with
      | none => ""
      | some cs => joinWith " " cs
    let selectQuery := "SELECT " ++ joinWith ", " a.columns ++ " FROM "
      ++ model.core.name ++ " " ++ a.joinsStr ++ " " ++ a.whereStr ++ " " ++ constraintsStr
    if options.fetchTotalCount = some true then
      let countConstraints := match a.constraints with
        | none => ""
        | some cs => joinWith " " (cs.filter (fun c => !(jsStartsWith c "LIMIT")))
      let countQuery := "SELECT COUNT(*) FROM " ++ model.core.name ++ " " ++ a.joinsStr
        ++ " " ++ a.whereStr ++ " " ++ countConstraints
      .ok { selectQuery := selectQuery, bound := a.bound, countQuery := some countQuery }
    else
      .ok { selectQuery := selectQuery, bound := a.bound, countQuery := none }

/-- `BuiltQuery`. -/
structure BuiltQuery where
  query : String
  bound : List (String × JsVal)

/-- The SET clause of `_buildUpdate`: one `col = :ph` part per set entry, each
value converted through its field's database form. -/
def buildSetClause (model : Model) : List (String × JsVal) → QBState →
    Except OrmError (List String × QBState)
| [], st => .ok ([], st)
| (col, v) :: rest, st =>
  match model.core.getFieldWrapperChecked col with
  | .error e => .error e
  | .ok fsw =>
    match fsw.convertToDatabaseForm v with
    | .error e => .error e
    | .ok conv =>
      let (ph, st) := st.bindParam conv
      match buildSetClause model rest st with
      | .error e => .error e
      | .ok (parts, st) => .ok ((col ++ " = " ++ ph) :: parts, st)

/-- `UpdateQueryBuilder._buildUpdate`. -/
def buildUpdate (model : Model) (options : UpdateOptions) (supply : Nat → Nat) :
    Except OrmError BuiltQuery :=
  match buildWhereTop model (options.where_.getD .nil) supply with
  | .error e => .error e
  | .ok (children, st) =>
    if options.set.isEmpty then
      .ok { query := "", bound := st.bound }
    else
      match buildSetClause model options.set st with
      | .error e => .error e
      | .ok (parts, st) =>
        let setClause := joinWith ", " parts
        let whereClause := makeWhere children
        if st.joins.isSome || st.constraints.isSome then
          let joins := joinsStrOf st
          let pk := model.core.getPrimaryKeyName
          .ok { query := "UPDATE " ++ model.core.name ++ " SET " ++ setClause
                  ++ " WHERE " ++ pk ++ " IN (SELECT " ++ model.core.name ++ "." ++ pk
                  ++ " FROM " ++ model.core.name ++ " " ++ joins ++ " " ++ whereClause ++ ")",
                bound := st.bound }
        else
          .ok { query := "UPDATE " ++ model.core.name ++ " SET " ++ setClause
                  ++ " " ++ whereClause,
                bound := st.bound }

/--
`RemoveQueryBuilder._buildRemove`.  The source's guard is
`!this._whereClause || this._whereClause.length === 0`: the first disjunct is
always false (the `QueryBuilder` constructor replaces a null/undefined criteria
with `{}`), and `.length` on a plain criteria object reads the object's own
`length` key, which is `undefined` unless the caller put one there — so the
strict comparison with `0` holds only when the criteria contains
`length: 0`.
-/
def buildRemove (model : Model) (options : RemoveOptions) (supply : Nat → Nat) :
    Except OrmError BuiltQuery :=
  let wc := options.where_.getD .nil
  let guardFires : Bool := match critLookup "length" wc with
    | some (Crit.val (JsVal.num n)) => n == 0
    | _ => false
  if guardFires then
    .error .removeWithoutCriteria
  else
    match buildWhereTop model wc supply with
    | .error e => .error e
    | .ok (children, st) =>
      let whereClause := makeWhere children
      if st.joins.isSome || st.constraints.isSome then
        let joins := joinsStrOf st
        let pk := model.core.getPrimaryKeyName
        .ok { query := "DELETE FROM " ++ model.core.name
                ++ " WHERE " ++ pk ++ " IN (SELECT " ++ model.core.name ++ "." ++ pk
                ++ " FROM " ++ model.core.name ++ " " ++ joins ++ " " ++ whereClause ++ ")",
              bound := st.bound }
      else
        .ok { query := "DELETE FROM " ++ model.core.name ++ " " ++ whereClause,
              bound := st.bound }

/-- `Database.remove`: builds the query, returns without executing when the
query text is falsy, otherwise runs it.  The result lists the SQL statements
handed to the connection. -/
def removeStatements (model : Model) (options : RemoveOptions) (supply : Nat → Nat) :
    Except OrmError (List String) :=
  match buildRemove model options supply with
  | .error e => .error e
  | .ok q => .ok (if q.query = "" then [] else [q.query])

/-- `Database.update`, with the executed SQL statements as result. -/
def updateStatements (model : Model) (options : UpdateOptions) (supply : Nat → Nat) :
    Except OrmError (List String) :=
  match buildUpdate model options supply with
  | .error e => .error e
  | .ok q => .ok (if q.query = "" then [] else [q.query])

/-- Column definition of one field inside `Database.createSchema`, threading
the per-model `primaryKeyCount`. -/
def createColumnParts (modelName : String) (fsw : FieldSpecWrapper) (pkCount : Nat) :
    Except OrmError (List String × Nat) :=
  let parts := [fsw.fieldName]
  let parts := match fsw.fieldSpec.typeHint with
    | some t => parts ++ [t]
    | none => parts
  if fsw.fieldSpec.primaryKey = some true ∧ pkCount + 1 > 1 then
    .error (.multiplePrimaryKeys modelName)
  else
    let (parts, pkCount) :=
      if fsw.fieldSpec.primaryKey = some true then (parts ++ ["PRIMARY KEY"], pkCount + 1)
      else (parts, pkCount)
    let parts := if fsw.fieldSpec.unique = some true then parts ++ ["UNIQUE"] else parts
    let parts := match fsw.fieldSpec.collation with
      | some c => parts ++ ["COLLATE", c]
      | none => parts
    let parts := if fsw.fieldSpec.allowNull = some false then parts ++ ["NOT NULL"] else parts
    match fsw.fieldSpec.defaultValue with
    | some dv =>
      match fsw.convertToDatabaseForm dv with
      | .error e => .error e
      | .ok conv =>
        .ok (parts ++ ["DEFAULT",
          match conv with
          | JsVal.str s => "\"" ++ s ++ "\""
          | other => other.jsToString], pkCount)
    | none => .ok (parts, pkCount)

/-- The per-model column loop of `createSchema`. -/
def createTableColumns (modelName : String) : List FieldSpecWrapper → Nat →
    Except OrmError (List String)
| [], _ => .ok []
| fsw :: rest, pkCount =>
  match createColumnParts modelName fsw pkCount with
  | .error e => .error e
  | .ok (parts, pkCount') =>
    match createTableColumns modelName rest pkCount' with
    | .error e => .error e
    | .ok cols => .ok (joinWith " " parts :: cols)

/-- One `CREATE TABLE` clause of `Database.createSchema`. -/
def createTableClause (m : Model) : Except OrmError String :=
  match createTableColumns m.core.name m.core.fields 0 with
  | .error e => .error e
  | .ok cols =>
    .ok ("CREATE TABLE " ++ m.core.name ++ "("
      ++ joinWith ", " (cols ++ m.modelConstraints) ++ ")")

/-- The `for (let model of this._models)` loop of `createSchema`: one table
clause per model, stopping at the first error. -/
def createSchemaTables : List Model → Except OrmError (List String)
| [] => .ok []
| m :: rest =>
  match createTableClause m with
  | .error e => .error e
  | .ok c =>
    match createSchemaTables rest with
    | .error e => .error e
    | .ok cs => .ok (c :: cs)

/-- `Database.createSchema` over the database's model list. -/
def createSchema (models : List Model) : Except OrmError String :=
  match createSchemaTables models with
  | .error e => .error e
  | .ok tables => .ok (joinWith "; " tables)

/-- Presence test on an insertion-ordered JS `Map`/object. -/
def mapHas (l : List (String × JsVal)) (k : String) : Bool :=
  l.any (fun p => p.1 = k)

/-- Lookup on an insertion-ordered JS `Map`/object (`undefined` is `none`). -/
def mapGet (l : List (String × JsVal)) (k : String) : Option JsVal :=
  (l.find? (fun p => p.1 = k)).map (fun p => p.2)

/--
`DatabaseInstance` state: the `$d` record.  The relation map's values are
accessor objects; only their keys matter to `$get`/`$set`/`$has`, so the map is
modelled by its key list.
-/
structure DbInstance where
  model : Model
  fields : List (String × JsVal)
  relationNames : List String
  created : Bool
  rowId : JsVal

/-- The `$rowId` setter: store the value and mirror it into the primary-key
field if the field map already has that key. -/
def DbInstance.setRowId (inst : DbInstance) (value : JsVal) : DbInstance :=
  let inst := { inst with rowId := value }
  let pk := inst.model.core.getPrimaryKeyName
  if mapHas inst.fields pk then
    { inst with fields := objSet inst.fields pk value }
  else
    inst

/-- `DatabaseInstance.$set`. -/
def DbInstance.dollarSet (inst : DbInstance) (prop : String) (value : JsVal) :
    Bool × DbInstance :=
  if inst.relationNames.contains prop then
    (false, inst)
  else
    let inst := { inst with fields := objSet inst.fields prop value }
    match inst.model.core.getFieldWrapper prop with
    | some fsw =>
      if fsw.fieldSpec.primaryKey = some true then (true, inst.setRowId value)
      else (true, inst)
    | none => (true, inst)

/-- Result of `$get`: a field value, a relation accessor, or `undefined`. -/
inductive GetResult where
| val (v : JsVal)
| relation (name : String)
| undefinedVal
deriving DecidableEq, Repr

/-- `DatabaseInstance.$get`. -/
def DbInstance.dollarGet (inst : DbInstance) (prop : String) : GetResult :=
  match mapGet inst.fields prop with
  | some v => .val v
  | none =>
    if inst.relationNames.contains prop then .relation prop else .undefinedVal

/-- `DatabaseInstance.$has`. -/
def DbInstance.dollarHas (inst : DbInstance) (prop : String) : Bool :=
  mapHas inst.fields prop || inst.relationNames.contains prop

/-- JS `x == null` where `x` is a `$get` result (accessors are objects, never
loosely null). -/
def GetResult.looseEqNull : GetResult → Bool
| .val v => v.looseEqNull
| .relation _ => false
| .undefinedVal => true

/-- The stored foreign key of a Single/Many relation edge. -/
def RelationData.foreignKey : RelationData → String
| .single _ _ _ _ _ fk => fk
| .many _ _ _ _ _ fk => fk
| .multi _ _ _ _ _ _ _ _ => ""

/-- What `DbSingleRelation.get` does before any asynchronous work: fail the
guard, return null without querying, or issue one of the two lookups. -/
inductive SingleGetOutcome where
| err (e : OrmError)
| nullNoQuery
| findByPK (fk : GetResult)
| earlyNull
| reverseFindOne (foreignKey : String) (value : JsVal)
deriving DecidableEq, Repr

/--
`DbSingleRelation.get`.  On the companion side the source guards with
`!this._inst.$rowId == null || !this._inst.$created`: the left operand is the
JS boolean `!rowId`, and a boolean compared loosely with `null` is always
false, which the embedding keeps verbatim.
-/
def dbSingleRelationGet (d : RelationData) (inst : DbInstance) : SingleGetOutcome :=
  if inst.rowId.looseEqNull || !inst.created then
    .err .instanceInvalid
  else if !d.isCompanion then
    let fk := inst.dollarGet d.foreignKey
    if fk.looseEqNull then .nullNoQuery else .findByPK fk
  else
    if (JsVal.bool (!inst.rowId.truthy)).looseEqNull || !inst.created then
      .earlyNull
    else
      .reverseFindOne d.foreignKey inst.rowId

/-! ### Test fixtures used by witnesses and counterexamples -/

/-- Fixture: model `foo` with integer primary key `id`. -/
def fooCore : ModelCore :=
  ⟨0, "foo", [⟨"id", { typeHint := some "INTEGER", primaryKey := some true }⟩]⟩

def fooModel : Model := ⟨fooCore, [], [], none⟩

/-- Fixture: model `bar` with integer primary key `id` and foreign key `fooid`. -/
def barCore : ModelCore :=
  ⟨1, "bar", [⟨"id", { typeHint := some "INTEGER", primaryKey := some true }⟩,
              ⟨"fooid", { typeHint := some "INTEGER" }⟩]⟩

def barModel : Model := ⟨barCore, [], [], none⟩

/-- A fixed random supply (every `Math.random` draw yields 0). -/
def constSupply : Nat → Nat := fun _ => 0

/-! ### Derived executed-statement views -/

/-- The statements `Database.update` actually hands to the connection: none
when the builder threw, none when the built query text is empty. -/
def executedUpdateStatements (model : Model) (options : UpdateOptions)
    (supply : Nat → Nat) : List String :=
  match updateStatements model options supply with
  | .error _ => []
  | .ok l => l

/-! ### Character-class helper lemmas -/

theorem isAlphaCode_eq_isAlpha (c : Char) : isAlphaCode c.toNat = c.isAlpha := by
  simp only [isAlphaCode, Char.isAlpha, Char.isUpper, Char.isLower, Char.toNat]
  have h1 : (c.val ≥ 65) ↔ (65 ≤ c.val.toNat) := Iff.rfl
  have h2 : (c.val ≤ 90) ↔ (c.val.toNat ≤ 90) := Iff.rfl
  have h3 : (c.val ≥ 97) ↔ (97 ≤ c.val.toNat) := Iff.rfl
  have h4 : (c.val ≤ 122) ↔ (c.val.toNat ≤ 122) := Iff.rfl
  simp only [h1, h2, h3, h4]
  rw [Bool.or_comm]

theorem isDigitCode_eq_isDigit (c : Char) : isDigitCode c.toNat = c.isDigit := by
  simp only [isDigitCode, Char.isDigit, Char.toNat]
  have h1 : (c.val ≥ 48) ↔ (48 ≤ c.val.toNat) := Iff.rfl
  have h2 : (c.val ≤ 57) ↔ (c.val.toNat ≤ 57) := Iff.rfl
  simp only [h1, h2]

theorem toNat_beq_95_eq_underscore (c : Char) : (c.toNat == 95) = (c == '_') := by
  cases h : c == '_' with
  | true =>
    have : c = '_' := by exact beq_iff_eq.mp h
    subst this; rfl
  | false =>
    have hne : c ≠ '_' := by exact beq_eq_false_iff_ne.mp h
    by_contra hcon
    have h95 : c.toNat = 95 := by
      cases h2 : (c.toNat == 95) with
      | true => exact beq_iff_eq.mp h2
      | false => rw [h2] at hcon; exact absurd rfl hcon
    apply hne
    apply Char.ext
    apply UInt32.ext
    exact h95

/-! ### C1 -/

/--
C1: the spec says `model.remove({})` must fail with an error and issue no
DELETE.  In the source the guard `!this._whereClause || this._whereClause.length === 0`
never fires for a plain criteria object (`.length` is `undefined` there), so
`Database.remove` with empty criteria compiles `DELETE FROM foo ` — with no
WHERE clause — and executes it, deleting every row.  This theorem evaluates
the embedded pipeline at the failing input, for both `remove({})` and
`remove({where: {}})`.
-/
theorem c1_remove_empty_criteria_executes_delete :
    removeStatements fooModel { where_ := none } constSupply = .ok ["DELETE FROM foo "] ∧
    removeStatements fooModel { where_ := some .nil } constSupply = .ok ["DELETE FROM foo "] :=
  ⟨rfl, rfl⟩

/-! ### C5 -/

/--
C5 counterexample: the claim says a name beginning with an underscore followed
by letters is accepted; the source's `isValidName` requires the first
character to satisfy `isAlphaCode` (letters only), so `_ab` is rejected and
`addField` fails with the name error.
-/
theorem c5_counterexample_underscore_start_rejected :
    isValidName "_ab" = false ∧
    fooModel.addField "_ab" {} = .error (.invalidName "_ab") :=
  ⟨rfl, rfl⟩

/--
C5 amended: `isValidName` (and hence `addField`) accepts exactly the names
whose first character is a letter and whose remaining characters are
alphanumeric or underscore; a name starting with an underscore is rejected,
and any invalid name makes `addField` fail with the name error.
-/
theorem c5_name_grammar_letter_start :
    (∀ (name : String) (c : Char) (rest : List Char), name.toList = c :: rest →
      (isValidName name = true ↔
        (c.isAlpha = true ∧ ∀ x ∈ rest, x.isAlphanum = true ∨ x = '_'))) ∧
    (∀ (name : String) (rest : List Char), name.toList = '_' :: rest →
      isValidName name = false) ∧
    (∀ (m : Model) (name : String) (fs : FieldSpec), isValidName name = false →
      m.addField name fs = .error (.invalidName name)) := by
  have main : ∀ (name : String) (c : Char) (rest : List Char), name.toList = c :: rest →
      (isValidName name = true ↔
        (c.isAlpha = true ∧ ∀ x ∈ rest, x.isAlphanum = true ∨ x = '_')) := by
    intro name c rest h
    have hchar : ∀ x : Char,
        ((isAlphaCode x.toNat || isDigitCode x.toNat || x.toNat == 95) = true)
          ↔ (x.isAlphanum = true ∨ x = '_') := by
      intro x
      rw [isAlphaCode_eq_isAlpha, isDigitCode_eq_isDigit, toNat_beq_95_eq_underscore]
      simp [Char.isAlphanum, Bool.or_assoc, or_assoc]
    simp only [isValidName, h, List.map_cons]
    simp only [Bool.and_eq_true, List.all_eq_true, isAlphaCode_eq_isAlpha]
    constructor
    · rintro ⟨h1, h2⟩
      refine ⟨h1, fun x hx => ?_⟩
      exact (hchar x).mp (h2 x.toNat (List.mem_map_of_mem _ hx))
    · rintro ⟨h1, h2⟩
      refine ⟨h1, fun n hn => ?_⟩
      obtain ⟨x, hx, rfl⟩ := List.mem_map.mp hn
      exact (hchar x).mpr (h2 x hx)
  refine ⟨main, ?_, ?_⟩
  · intro name rest h
    cases hv : isValidName name with
    | false => rfl
    | true =>
      have h1 := (main name '_' rest h).mp hv
      have : ('_').isAlpha = true := h1.1
      simp at this
  · intro m name fs h
    simp only [Model.addField, h]
    rfl

/-- C5 witness: the amended grammar at concrete inputs — `a_1` is accepted,
`_ab` is rejected and makes `addField` fail. -/
theorem c5_name_grammar_witness :
    isValidName "a_1" = true ∧ isValidName "_ab" = false ∧
    fooModel.addField "_ab" {} = .error (.invalidName "_ab") := by
  refine ⟨?_, ?_, ?_⟩
  · exact (c5_name_grammar_letter_start.1 "a_1" 'a' ['_', '1'] rfl).mpr (by decide)
  · exact c5_name_grammar_letter_start.2.1 "_ab" ['a', 'b'] rfl
  · exact c5_name_grammar_letter_start.2.2 fooModel "_ab" {}
      (c5_name_grammar_letter_start.2.1 "_ab" ['a', 'b'] rfl)

/-! ### C7 -/

/--
C7: for a Single relation edge, `getJoinCondition` called with the registered
owner model and companion model yields exactly
`companionAlias.<companionPK> = ownerTable.<foreignKey>` on the non-companion
side and `companionAlias.<foreignKey> = ownerTable.<ownerPK>` on the companion
side, and any other model pair fails with `ModelMismatchError`.
-/
theorem c7_single_relation_join_condition :
    ∀ (nm : String) (t : RelationType) (owner companion : ModelCore) (isLeft : Bool)
      (fk : String) (model joinModel : ModelCore) (companionAlias : String),
      (model.id = owner.id → joinModel.id = companion.id →
        (RelationData.single nm t owner companion isLeft fk).getJoinCondition
            model companionAlias joinModel
          = .ok (if (RelationData.single nm t owner companion isLeft fk).isCompanion then
              companionAlias ++ "." ++ fk ++ " = " ++ owner.name ++ "." ++ owner.getPrimaryKeyName
            else
              companionAlias ++ "." ++ companion.getPrimaryKeyName ++ " = "
                ++ owner.name ++ "." ++ fk)) ∧
      (model.id ≠ owner.id ∨ joinModel.id ≠ companion.id →
        (RelationData.single nm t owner companion isLeft fk).getJoinCondition
            model companionAlias joinModel = .error .modelMismatch) := by
  intro nm t owner companion isLeft fk model joinModel companionAlias
  constructor
  · intro h1 h2
    simp only [RelationData.getJoinCondition, h1, h2]
    simp only [ne_eq, not_true_eq_false, or_self, if_false]
    cases hC : (RelationData.single nm t owner companion isLeft fk).isCompanion with
    | true => simp [hC]
    | false => simp [hC]
  · intro h
    simp only [RelationData.getJoinCondition]
    rw [if_pos]
    exact h

/-- C7 witness: the companion (reverse one-to-one) edge `bar → foo` at concrete
models: the matching pair renders the reverse condition; swapping in the wrong
owner model fails with the mismatch error. -/
theorem c7_single_relation_join_condition_witness :
    (RelationData.single "foo" RelationType.OneToOne barCore fooCore false "fooid").getJoinCondition
        barCore "__sa_foo" fooCore = .ok "__sa_foo.fooid = bar.id" ∧
    (RelationData.single "foo" RelationType.OneToOne barCore fooCore false "fooid").getJoinCondition
        fooCore "__sa_foo" fooCore = .error .modelMismatch := by
  constructor
  · have h := (c7_single_relation_join_condition "foo" RelationType.OneToOne barCore fooCore
      false "fooid" barCore fooCore "__sa_foo").1 rfl rfl
    rw [h]; rfl
  · exact (c7_single_relation_join_condition "foo" RelationType.OneToOne barCore fooCore
      false "fooid" fooCore fooCore "__sa_foo").2 (Or.inl (by decide))

/-! ### C8 -/

/--
C8: an update whose `set` map is empty executes no SQL statement regardless of
the `where` criteria: the builder returns an empty query text and
`Database.update` returns before running anything (and when the criteria
compiler throws, nothing has been executed either).
-/
theorem c8_update_empty_set_is_noop :
    ∀ (model : Model) (options : UpdateOptions) (supply : Nat → Nat),
    options.set = [] →
    (∀ q, buildUpdate model options supply = .ok q → q.query = "") ∧
    executedUpdateStatements model options supply = [] := by
  intro model options supply hset
  cases hw : buildWhereTop model (options.where_.getD .nil) supply with
  | error e =>
    constructor
    · intro q hq
      unfold buildUpdate at hq
      rw [hw] at hq
      exact absurd hq (by simp)
    · unfold executedUpdateStatements updateStatements buildUpdate
      rw [hw]
  | ok p =>
    have hempty : options.set.isEmpty = true := by rw [hset]; rfl
    constructor
    · intro q hq
      unfold buildUpdate at hq
      rw [hw, hempty] at hq
      simp at hq
      rw [← hq]
    · unfold executedUpdateStatements updateStatements buildUpdate
      rw [hw, hempty]
      simp

/-- C8 witness: empty set map at a concrete model and criteria. -/
theorem c8_update_empty_set_is_noop_witness :
    executedUpdateStatements fooModel { where_ := none, set := [] } constSupply = [] ∧
    updateStatements fooModel { where_ := none, set := [] } constSupply = .ok [] :=
  ⟨(c8_update_empty_set_is_noop fooModel { where_ := none, set := [] } constSupply rfl).2, rfl⟩

/-! ### C9 -/

theorem find?_objSet_self (l : List (String × JsVal)) (k : String) (v : JsVal) :
    (objSet l k v).find? (fun p => p.1 = k) = some (k, v) := by
  unfold objSet
  cases h : l.any (fun p => p.1 = k) with
  | true =>
    simp only [if_pos]
    induction l with
    | nil => simp at h
    | cons p l' ih =>
      by_cases hp : p.1 = k
      · simp [List.find?, hp]
      · have h' : l'.any (fun p => decide (p.1 = k)) = true := by
          simp only [List.any_cons] at h
          rcases Bool.or_eq_true_iff.mp h with h1 | h1
          · exact absurd (of_decide_eq_true h1) hp
          · exact h1
        simp only [List.map_cons, List.find?, if_neg hp]
        simp only [hp, decide_eq_true_eq, if_neg hp]
        exact ih h'
  | false =>
    simp only [h, Bool.false_eq_true, if_false]
    have hnone : l.find? (fun p => decide (p.1 = k)) = none := by
      rw [List.find?_eq_none]
      intro p hp
      have := List.any_eq_false.mp h p hp
      simpa using this
    rw [List.find?_append, hnone]
    simp [List.find?]

theorem mapGet_objSet (l : List (String × JsVal)) (k : String) (v : JsVal) :
    mapGet (objSet l k v) k = some v := by
  unfold mapGet
  rw [find?_objSet_self]
  rfl

theorem mapHas_objSet (l : List (String × JsVal)) (k : String) (v : JsVal) :
    mapHas (objSet l k v) k = true := by
  unfold mapHas
  have hmem : (k, v) ∈ objSet l k v := List.mem_of_find?_eq_some (find?_objSet_self l k v)
  exact List.any_eq_true.mpr ⟨(k, v), hmem, by simp⟩

/--
C9: `$set` on a name that is neither a declared field nor a declared relation
(and outside the reserved `$` prefix) silently accepts the value: it returns
true, stores the value in the field map, and afterwards `$has` is true and
`$get` yields the stored value.
-/
theorem c9_set_undeclared_name_accepted :
    ∀ (inst : DbInstance) (name : String) (value : JsVal),
    inst.relationNames.contains name = false →
    inst.model.core.getFieldWrapper name = none →
    jsStartsWith name "$" = false →
    (inst.dollarSet name value).1 = true ∧
    (inst.dollarSet name value).2.dollarHas name = true ∧
    (inst.dollarSet name value).2.dollarGet name = .val value := by
  intro inst name value hrel hfw _
  have hset : inst.dollarSet name value
      = (true, { inst with fields := objSet inst.fields name value }) := by
    unfold DbInstance.dollarSet
    rw [hrel]
    simp only [Bool.false_eq_true, if_false]
    rw [hfw]
  refine ⟨by rw [hset], ?_, ?_⟩
  · rw [hset]
    unfold DbInstance.dollarHas
    simp [mapHas_objSet]
  · rw [hset]
    unfold DbInstance.dollarGet
    rw [mapGet_objSet]

/-- An instance with no fields and no relations over the `foo` model. -/
def emptyInst : DbInstance := ⟨fooModel, [], [], false, JsVal.null⟩

/-- C9 witness: storing and reading back an undeclared name on a concrete
instance. -/
theorem c9_set_undeclared_name_accepted_witness :
    (emptyInst.dollarSet "extra" (JsVal.str "x")).1 = true ∧
    (emptyInst.dollarSet "extra" (JsVal.str "x")).2.dollarHas "extra" = true ∧
    (emptyInst.dollarSet "extra" (JsVal.str "x")).2.dollarGet "extra" = .val (JsVal.str "x") :=
  c9_set_undeclared_name_accepted emptyInst "extra" (JsVal.str "x") rfl rfl rfl

/-! ### C10 -/

/--
C10: on the companion (reverse one-to-one) side, whenever the guard of
`DbSingleRelation.get` passes (instance created with a non-null row id), the
early null-returning branch is unreachable — its condition
`!this._inst.$rowId == null` compares a boolean to null and is always false —
so `get` always issues the reverse `findOne` search; moreover no input at all
can produce the early-null outcome.
-/
theorem c10_companion_get_never_early_null :
    ∀ (d : RelationData) (inst : DbInstance),
    (inst.created = true → inst.rowId.looseEqNull = false → d.isCompanion = true →
      dbSingleRelationGet d inst = .reverseFindOne d.foreignKey inst.rowId) ∧
    dbSingleRelationGet d inst ≠ .earlyNull := by
  intro d inst
  constructor
  · intro h1 h2 h3
    unfold dbSingleRelationGet
    rw [h1, h2, h3]
    simp [JsVal.looseEqNull]
  · intro hcon
    unfold dbSingleRelationGet at hcon
    by_cases hg : (inst.rowId.looseEqNull || !inst.created) = true
    · rw [if_pos hg] at hcon
      exact absurd hcon (by simp)
    · rw [if_neg hg] at hcon
      have hgf : (inst.rowId.looseEqNull || !inst.created) = false :=
        Bool.not_eq_true _ |>.mp (by simpa using hg)
      have hcreated : inst.created = true := by
        rcases Bool.or_eq_false_iff.mp hgf with ⟨_, h2⟩
        simpa using h2
      by_cases hc : (!d.isCompanion) = true
      · rw [if_pos hc] at hcon
        by_cases hfk : (inst.dollarGet d.foreignKey).looseEqNull = true
        · rw [if_pos hfk] at hcon
          exact absurd hcon (by simp)
        · rw [if_neg hfk] at hcon
          exact absurd hcon (by simp)
      · rw [if_neg hc] at hcon
        rw [hcreated] at hcon
        simp [JsVal.looseEqNull] at hcon

/-- The companion-side one-to-one edge `bar → foo` (stored foreign key
`fooid`). -/
def companionRel : RelationData :=
  .single "foo" RelationType.OneToOne barCore fooCore false "fooid"

/-- A flushed `bar` instance with row id 7. -/
def createdInst : DbInstance :=
  ⟨barModel, [("id", JsVal.num 7), ("fooid", JsVal.null)], [], true, JsVal.num 7⟩

/-- C10 witness: a created companion-side instance always reaches the reverse
findOne search. -/
theorem c10_companion_get_never_early_null_witness :
    dbSingleRelationGet companionRel createdInst
      = .reverseFindOne "fooid" (JsVal.num 7) :=
  (c10_companion_get_never_early_null companionRel createdInst).1 rfl rfl rfl

/-! ### C4 -/

/-- A valid field name never starts with the operator marker `$`. -/
theorem isValidName_not_dollar (name : String) (h : isValidName name = true) :
    jsStartsWith name "$" = false := by
  unfold isValidName at h
  cases hl : name.toList with
  | nil => rw [hl] at h; simp at h
  | cons c rest =>
    rw [hl] at h
    simp only [List.map_cons, Bool.and_eq_true] at h
    have hc : c ≠ '$' := by
      intro hceq
      rw [hceq] at h
      exact absurd h.1 (by decide)
    unfold jsStartsWith
    rw [hl]
    show (List.isPrefixOf ['$'] (c :: rest)) = false
    simp [List.isPrefixOf, Ne.symm hc]

/--
C4: for any declared-shape field name (valid identifier) and any value, the
criterion `{field: {$in: [v]}}` compiles to exactly the same WHERE child and
builder state as `{field: {$eq: v}}`, and `{field: {$notin: [v]}}` to the same
as `{field: {$ne: v}}`; an empty `$in`/`$notin` list fails with the
empty-list error.
-/
theorem c4_single_element_in_notin_degenerates :
    ∀ (model : Model) (field : String) (v : JsVal) (st : QBState),
    isValidName field = true →
    (buildWhereEntries model (.cons field (Crit.obj (.cons "$in" (Crit.arr [v]) .nil)) .nil)
        .Logical "" st
      = buildWhereEntries model (.cons field (Crit.obj (.cons "$eq" (Crit.val v) .nil)) .nil)
        .Logical "" st) ∧
    (buildWhereEntries model (.cons field (Crit.obj (.cons "$notin" (Crit.arr [v]) .nil)) .nil)
        .Logical "" st
      = buildWhereEntries model (.cons field (Crit.obj (.cons "$ne" (Crit.val v) .nil)) .nil)
        .Logical "" st) ∧
    (buildWhereEntries model (.cons field (Crit.obj (.cons "$in" (Crit.arr []) .nil)) .nil)
        .Logical "" st = .error .emptyInList) ∧
    (buildWhereEntries model (.cons field (Crit.obj (.cons "$notin" (Crit.arr []) .nil)) .nil)
        .Logical "" st = .error .emptyInList) := by
  intro model field v st h
  have hnd := isValidName_not_dollar field h
  refine ⟨?_, ?_, ?_, ?_⟩ <;>
  · simp only [buildWhereEntries, buildWhereNode, hnd, Bool.false_eq_true, if_false]
    rfl

/-- C4 witness: single-element `$in` against `foo.id` at value 3 compiles like
`$eq`, and the empty list fails. -/
theorem c4_single_element_in_notin_degenerates_witness :
    isValidName "id" = true ∧
    (buildWhereEntries fooModel
        (.cons "id" (Crit.obj (.cons "$in" (Crit.arr [JsVal.num 3]) .nil)) .nil)
        .Logical "" (QBState.init constSupply)
      = buildWhereEntries fooModel
        (.cons "id" (Crit.obj (.cons "$eq" (Crit.val (JsVal.num 3)) .nil)) .nil)
        .Logical "" (QBState.init constSupply)) ∧
    (buildWhereEntries fooModel
        (.cons "id" (Crit.obj (.cons "$in" (Crit.arr []) .nil)) .nil)
        .Logical "" (QBState.init constSupply) = .error .emptyInList) :=
  ⟨rfl,
   (c4_single_element_in_notin_degenerates fooModel "id" (JsVal.num 3)
      (QBState.init constSupply) rfl).1,
   (c4_single_element_in_notin_degenerates fooModel "id" (JsVal.num 3)
      (QBState.init constSupply) rfl).2.2.1⟩

/-! ### C3 -/

/-- One client operation on one `SqlBoundParams` object. -/
inductive BoundOp where
| bindv (v : JsVal)
| mergev (entries : List (String × JsVal))

/-- Run a sequence of bind/merge operations, drawing each bind's random token
from the supply at successive positions. -/
def runBoundOps (supply : Nat → Nat) :
    List BoundOp → SqlBoundParams → Nat → SqlBoundParams × Nat
| [], p, k => (p, k)
| .bindv v :: rest, p, k =>
  runBoundOps supply rest (SqlBoundParams.bind p (supply k) v).2 (k + 1)
| .mergev es :: rest, p, k => runBoundOps supply rest (p.merge ⟨es⟩) k

/-- The placeholder names a sequence of operations introduces, in order. -/
def introducedKeys (supply : Nat → Nat) : List BoundOp → Nat → List String
| [], _ => []
| .bindv _ :: rest, k => sqlUniqueName (supply k) :: introducedKeys supply rest (k + 1)
| .mergev es :: rest, k => es.map (fun p => p.1) ++ introducedKeys supply rest k

theorem objSet_keys (l : List (String × JsVal)) (k : String) (v : JsVal) :
    (objSet l k v).map Prod.fst =
      if l.any (fun p => p.1 = k) then l.map Prod.fst else l.map Prod.fst ++ [k] := by
  unfold objSet
  split
  · rw [List.map_map]
    apply List.map_congr_left
    intro p _
    by_cases hp : p.1 = k
    · simp [hp]
    · simp [hp]
  · simp

theorem any_key_eq_mem (l : List (String × JsVal)) (k : String) :
    (l.any (fun p => p.1 = k)) = true ↔ k ∈ l.map Prod.fst := by
  rw [List.any_eq_true]
  constructor
  · rintro ⟨p, hp, hpk⟩
    exact List.mem_map.mpr ⟨p, hp, of_decide_eq_true hpk⟩
  · intro hm
    rcases List.mem_map.mp hm with ⟨p, hp, hpk⟩
    exact ⟨p, hp, decide_eq_true hpk⟩

theorem objSet_keys_nodup (l : List (String × JsVal)) (k : String) (v : JsVal)
    (h : (l.map Prod.fst).Nodup) : ((objSet l k v).map Prod.fst).Nodup := by
  rw [objSet_keys]
  split
  · exact h
  · rename_i hany
    have hnot : k ∉ l.map Prod.fst := fun hm =>
      hany ((any_key_eq_mem l k).mpr hm)
    simp [List.nodup_append, h, hnot]

theorem objSet_keys_fresh (l : List (String × JsVal)) (k : String) (v : JsVal)
    (h : k ∉ l.map Prod.fst) :
    (objSet l k v).map Prod.fst = l.map Prod.fst ++ [k] := by
  rw [objSet_keys]
  rw [if_neg]
  intro hany
  exact h ((any_key_eq_mem l k).mp hany)

theorem foldl_objSet_nodup (es : List (String × JsVal)) :
    ∀ (l : List (String × JsVal)), (l.map Prod.fst).Nodup →
    ((es.foldl (fun acc kv => objSet acc kv.1 kv.2) l).map Prod.fst).Nodup := by
  induction es with
  | nil => intro l h; simpa using h
  | cons kv es' ih =>
    intro l h
    exact ih (objSet l kv.1 kv.2) (objSet_keys_nodup l kv.1 kv.2 h)

theorem foldl_objSet_keys_fresh (es : List (String × JsVal)) :
    ∀ (l : List (String × JsVal)),
    (∀ key ∈ es.map Prod.fst, key ∉ l.map Prod.fst) →
    (es.map Prod.fst).Nodup →
    ((es.foldl (fun acc kv => objSet acc kv.1 kv.2) l).map Prod.fst)
      = l.map Prod.fst ++ es.map Prod.fst := by
  induction es with
  | nil => intro l _ _; simp
  | cons kv es' ih =>
    intro l hfresh hnd
    have hk : kv.1 ∉ l.map Prod.fst := hfresh kv.1 (by simp)
    have hstep := objSet_keys_fresh l kv.1 kv.2 hk
    simp only [List.map_cons, List.nodup_cons] at hnd
    have hfresh' : ∀ key ∈ es'.map Prod.fst, key ∉ (objSet l kv.1 kv.2).map Prod.fst := by
      intro key hkey
      rw [hstep]
      intro hmem
      rcases List.mem_append.mp hmem with hmem | hmem
      · exact hfresh key (by simp [hkey]) hmem
      · rcases List.mem_singleton.mp hmem with rfl
        exact hnd.1 hkey
    calc ((es'.foldl (fun acc kv => objSet acc kv.1 kv.2) (objSet l kv.1 kv.2)).map Prod.fst)
        = (objSet l kv.1 kv.2).map Prod.fst ++ es'.map Prod.fst := ih _ hfresh' hnd.2
      _ = l.map Prod.fst ++ (kv.1 :: es'.map Prod.fst) := by rw [hstep]; simp

theorem runBoundOps_nodup (supply : Nat → Nat) (ops : List BoundOp) :
    ∀ (p : SqlBoundParams) (k : Nat), (p.bound.map Prod.fst).Nodup →
    (((runBoundOps supply ops p k).1.bound.map Prod.fst)).Nodup := by
  induction ops with
  | nil => intro p k h; exact h
  | cons op rest ih =>
    intro p k h
    cases op with
    | bindv v =>
      exact ih _ _ (objSet_keys_nodup p.bound (sqlUniqueName (supply k)) v h)
    | mergev es =>
      exact ih _ _ (foldl_objSet_nodup es p.bound h)

theorem runBoundOps_keys_fresh (supply : Nat → Nat) (ops : List BoundOp) :
    ∀ (p : SqlBoundParams) (k : Nat),
    (introducedKeys supply ops k).Nodup →
    (∀ key ∈ introducedKeys supply ops k, key ∉ p.bound.map Prod.fst) →
    ((runBoundOps supply ops p k).1.bound.map Prod.fst)
      = p.bound.map Prod.fst ++ introducedKeys supply ops k := by
  induction ops with
  | nil => intro p k _ _; simp [runBoundOps, introducedKeys]
  | cons op rest ih =>
    intro p k hnd hfresh
    cases op with
    | bindv v =>
      simp only [introducedKeys, List.nodup_cons] at hnd hfresh
      have hk : sqlUniqueName (supply k) ∉ p.bound.map Prod.fst :=
        hfresh (sqlUniqueName (supply k)) (List.mem_cons_self _ _)
      have hstep := objSet_keys_fresh p.bound (sqlUniqueName (supply k)) v hk
      have hfresh2 : ∀ key ∈ introducedKeys supply rest (k + 1),
          key ∉ (objSet p.bound (sqlUniqueName (supply k)) v).map Prod.fst := by
        intro key hkey
        rw [hstep]
        intro hmem
        rcases List.mem_append.mp hmem with hmem | hmem
        · exact hfresh key (List.mem_cons_of_mem _ hkey) hmem
        · rcases List.mem_singleton.mp hmem with rfl
          exact hnd.1 hkey
      have hb : (SqlBoundParams.bind p (supply k) v).2
          = ⟨objSet p.bound (sqlUniqueName (supply k)) v⟩ := rfl
      show ((runBoundOps supply rest
          (SqlBoundParams.bind p (supply k) v).2 (k + 1)).1.bound.map Prod.fst) = _
      rw [hb, ih ⟨objSet p.bound (sqlUniqueName (supply k)) v⟩ (k + 1) hnd.2 hfresh2]
      show (objSet p.bound (sqlUniqueName (supply k)) v).map Prod.fst ++ _ = _
      rw [hstep]
      simp [introducedKeys]
    | mergev es =>
      simp only [introducedKeys] at hnd hfresh
      have hndes : (es.map (fun p => p.1)).Nodup := (List.nodup_append.mp hnd).1
      have hndrest : (introducedKeys supply rest k).Nodup := (List.nodup_append.mp hnd).2.1
      have hdisj := (List.nodup_append.mp hnd).2.2
      have hfreshes : ∀ key ∈ es.map Prod.fst, key ∉ p.bound.map Prod.fst := by
        intro key hkey
        exact hfresh key (List.mem_append.mpr (Or.inl hkey))
      have hstep := foldl_objSet_keys_fresh es p.bound hfreshes hndes
      have hfresh2 : ∀ key ∈ introducedKeys supply rest k,
          key ∉ (p.merge ⟨es⟩).bound.map Prod.fst := by
        intro key hkey
        show key ∉ (es.foldl (fun acc kv => objSet acc kv.1 kv.2) p.bound).map Prod.fst
        rw [hstep]
        intro hmem
        rcases List.mem_append.mp hmem with hmem | hmem
        · exact hfresh key (List.mem_append.mpr (Or.inr hkey)) hmem
        · exact hdisj hmem hkey
      show ((runBoundOps supply rest (p.merge ⟨es⟩) k).1.bound.map Prod.fst) = _
      rw [ih (p.merge ⟨es⟩) k hndrest hfresh2]
      show (es.foldl (fun acc kv => objSet acc kv.1 kv.2) p.bound).map Prod.fst ++ _ = _
      rw [hstep]
      simp [introducedKeys]

/--
C3 counterexample: the claim says binding n values always yields count n.
With the random supply returning the same draw twice, the second bind's
placeholder name collides with the first and overwrites it: two binds yield a
count of 1, not 2.
-/
theorem c3_counterexample_collision_loses_value :
    (runBoundOps constSupply [BoundOp.bindv (JsVal.num 1), BoundOp.bindv (JsVal.num 2)]
      ⟨[]⟩ 0).1.count = 1 ∧
    ¬ ((runBoundOps constSupply [BoundOp.bindv (JsVal.num 1), BoundOp.bindv (JsVal.num 2)]
      ⟨[]⟩ 0).1.count = 2) :=
  ⟨rfl, by decide⟩

/--
C3 amended: after any sequence of bind and merge operations the placeholder
names in the mapping are always pairwise distinct (object keys are unique);
and provided the generated random tokens and merged keys are pairwise
distinct, every bound value is retained: the count equals the number of
introduced keys (n for n binds).  Without that proviso a colliding token
overwrites an earlier value.
-/
theorem c3_bound_params_unique_names :
    ∀ (supply : Nat → Nat) (ops : List BoundOp),
    (((runBoundOps supply ops ⟨[]⟩ 0).1.bound.map Prod.fst).Nodup) ∧
    ((introducedKeys supply ops 0).Nodup →
      (runBoundOps supply ops ⟨[]⟩ 0).1.count = (introducedKeys supply ops 0).length) := by
  intro supply ops
  constructor
  · exact runBoundOps_nodup supply ops ⟨[]⟩ 0 (by simp)
  · intro hnd
    have hkeys := runBoundOps_keys_fresh supply ops ⟨[]⟩ 0 hnd (by simp)
    show (runBoundOps supply ops ⟨[]⟩ 0).1.bound.length = _
    rw [← List.length_map _ Prod.fst, hkeys]
    simp

/-- C3 witness: two binds with distinct random draws retain both values. -/
theorem c3_bound_params_unique_names_witness :
    (((runBoundOps (fun k => k) [BoundOp.bindv (JsVal.num 1), BoundOp.bindv (JsVal.num 2)]
      ⟨[]⟩ 0).1.bound.map Prod.fst).Nodup) ∧
    (runBoundOps (fun k => k) [BoundOp.bindv (JsVal.num 1), BoundOp.bindv (JsVal.num 2)]
      ⟨[]⟩ 0).1.count = 2 := by
  constructor
  · exact (c3_bound_params_unique_names (fun k => k)
      [BoundOp.bindv (JsVal.num 1), BoundOp.bindv (JsVal.num 2)]).1
  · exact (c3_bound_params_unique_names (fun k => k)
      [BoundOp.bindv (JsVal.num 1), BoundOp.bindv (JsVal.num 2)]).2 (by decide)

/-! ### C6 -/

/-- Number of primary-flagged fields of a field list. -/
def primaryCount (fields : List FieldSpecWrapper) : Nat :=
  (fields.filter (fun fsw => fsw.fieldSpec.primaryKey = some true)).length

theorem convertToDatabaseForm_error_is_validation (fsw : FieldSpecWrapper) (v : JsVal)
    (e : OrmError) (h : fsw.convertToDatabaseForm v = .error e) :
    e = .validation fsw.fieldName := by
  unfold FieldSpecWrapper.convertToDatabaseForm at h
  split at h
  · exact absurd h (by simp)
  · split at h
    · split at h
      · exact absurd h (by simp)
      · injection h with h; exact h.symm
    · exact absurd h (by simp)

theorem createColumnParts_ok_pk (modelName : String) (fsw : FieldSpecWrapper)
    (pkCount : Nat) (parts : List String) (pkCount' : Nat)
    (h : createColumnParts modelName fsw pkCount = .ok (parts, pkCount')) :
    (fsw.fieldSpec.primaryKey = some true → pkCount = 0 ∧ pkCount' = 1) ∧
    (fsw.fieldSpec.primaryKey ≠ some true → pkCount' = pkCount) := by
  unfold createColumnParts at h
  by_cases hp : fsw.fieldSpec.primaryKey = some true
  · cases pkCount with
    | succ n =>
      rw [if_pos ⟨hp, by omega⟩] at h
      exact absurd h (by simp)
    | zero =>
      rw [if_neg (by intro hcon; omega)] at h
      simp only [if_pos hp] at h
      refine ⟨fun _ => ⟨rfl, ?_⟩, fun hn => absurd hp hn⟩
      split at h
      · split at h
        · exact absurd h (by simp)
        · simp only [Except.ok.injEq, Prod.mk.injEq] at h
          exact h.2.symm
      · simp only [Except.ok.injEq, Prod.mk.injEq] at h
        exact h.2.symm
  · rw [if_neg (by intro hcon; exact hp hcon.1)] at h
    simp only [if_neg hp] at h
    refine ⟨fun hpp => absurd hpp hp, fun _ => ?_⟩
    split at h
    · split at h
      · exact absurd h (by simp)
      · simp only [Except.ok.injEq, Prod.mk.injEq] at h
        exact h.2.symm
    · simp only [Except.ok.injEq, Prod.mk.injEq] at h
      exact h.2.symm

theorem createColumnParts_error_shape (modelName : String) (fsw : FieldSpecWrapper)
    (pkCount : Nat) (e : OrmError)
    (h : createColumnParts modelName fsw pkCount = .error e) :
    (e = .multiplePrimaryKeys modelName ∧ fsw.fieldSpec.primaryKey = some true ∧ 1 ≤ pkCount) ∨
    (∃ f, e = .validation f) := by
  unfold createColumnParts at h
  by_cases hcond : fsw.fieldSpec.primaryKey = some true ∧ pkCount + 1 > 1
  · rw [if_pos hcond] at h
    injection h with h
    exact Or.inl ⟨h.symm, hcond.1, by omega⟩
  · rw [if_neg hcond] at h
    split at h
    cases hd : fsw.fieldSpec.defaultValue with
    | none =>
      rw [hd] at h
      simp at h
    | some dv =>
      rw [hd] at h
      dsimp only at h
      cases hc : fsw.convertToDatabaseForm dv with
      | error e2 =>
        rw [hc] at h
        simp only [Except.error.injEq] at h
        subst h
        exact Or.inr ⟨_, convertToDatabaseForm_error_is_validation _ _ _ hc⟩
      | ok conv =>
        rw [hc] at h
        simp at h

theorem primaryCount_cons (fsw : FieldSpecWrapper) (rest : List FieldSpecWrapper) :
    primaryCount (fsw :: rest)
      = (if fsw.fieldSpec.primaryKey = some true then 1 else 0) + primaryCount rest := by
  unfold primaryCount
  rw [List.filter_cons]
  by_cases hp : fsw.fieldSpec.primaryKey = some true
  · simp [hp, Nat.add_comm]
  · simp [hp]

theorem createTableColumns_ok_pk_bound (modelName : String) :
    ∀ (fields : List FieldSpecWrapper) (pkCount : Nat) (cols : List String),
    pkCount ≤ 1 →
    createTableColumns modelName fields pkCount = .ok cols →
    pkCount + primaryCount fields ≤ 1 := by
  intro fields
  induction fields with
  | nil =>
    intro pk cols hpk _
    simpa [primaryCount] using hpk
  | cons fsw rest ih =>
    intro pk cols hpk h
    unfold createTableColumns at h
    cases hcp : createColumnParts modelName fsw pk with
    | error e => rw [hcp] at h; exact absurd h (by simp)
    | ok pr =>
      rw [hcp] at h
      obtain ⟨parts, pk'⟩ := pr
      dsimp only at h
      cases hrest : createTableColumns modelName rest pk' with
      | error e => rw [hrest] at h; exact absurd h (by simp)
      | ok cols' =>
        have hchar := createColumnParts_ok_pk modelName fsw pk parts pk' hcp
        rw [primaryCount_cons]
        by_cases hp : fsw.fieldSpec.primaryKey = some true
        · obtain ⟨hpk0, hpk1⟩ := hchar.1 hp
          rw [if_pos hp]
          have hb := ih pk' cols' (by omega) hrest
          omega
        · have hEq := hchar.2 hp
          rw [if_neg hp]
          have hb := ih pk' cols' (by omega) hrest
          omega

theorem createTableColumns_error_not_multiPK (modelName : String) :
    ∀ (fields : List FieldSpecWrapper) (pkCount : Nat) (e : OrmError),
    pkCount + primaryCount fields ≤ 1 →
    createTableColumns modelName fields pkCount = .error e →
    e ≠ .multiplePrimaryKeys modelName := by
  intro fields
  induction fields with
  | nil =>
    intro pk e _ h
    unfold createTableColumns at h
    exact absurd h (by simp)
  | cons fsw rest ih =>
    intro pk e hb h
    rw [primaryCount_cons] at hb
    unfold createTableColumns at h
    cases hcp : createColumnParts modelName fsw pk with
    | error e0 =>
      rw [hcp] at h
      injection h with h
      subst h
      rcases createColumnParts_error_shape _ _ _ _ hcp with ⟨hmp, hp, hge⟩ | ⟨f, hf⟩
      · rw [if_pos hp] at hb
        omega
      · rw [hf]
        simp
    | ok pr =>
      rw [hcp] at h
      obtain ⟨parts, pk'⟩ := pr
      dsimp only at h
      cases hrest : createTableColumns modelName rest pk' with
      | error e0 =>
        rw [hrest] at h
        injection h with h
        subst h
        have hchar := createColumnParts_ok_pk modelName fsw pk parts pk' hcp
        by_cases hp : fsw.fieldSpec.primaryKey = some true
        · obtain ⟨hpk0, hpk1⟩ := hchar.1 hp
          rw [if_pos hp] at hb
          exact ih pk' e0 (by omega) hrest
        · have hEq := hchar.2 hp
          rw [if_neg hp] at hb
          exact ih pk' e0 (by omega) hrest
      | ok cols' =>
        rw [hrest] at h
        exact absurd h (by simp)

theorem createTableClause_ok_pk_bound (m : Model) (c : String)
    (h : createTableClause m = .ok c) : primaryCount m.core.fields ≤ 1 := by
  unfold createTableClause at h
  cases hcols : createTableColumns m.core.name m.core.fields 0 with
  | error e => rw [hcols] at h; exact absurd h (by simp)
  | ok cols =>
    have := createTableColumns_ok_pk_bound m.core.name m.core.fields 0 cols (by omega) hcols
    omega

theorem createTableClause_error_not_multiPK (m : Model) (e : OrmError)
    (hb : primaryCount m.core.fields ≤ 1) (h : createTableClause m = .error e) :
    e ≠ .multiplePrimaryKeys m.core.name := by
  unfold createTableClause at h
  cases hcols : createTableColumns m.core.name m.core.fields 0 with
  | error e0 =>
    rw [hcols] at h
    injection h with h
    subst h
    exact createTableColumns_error_not_multiPK m.core.name m.core.fields 0 e0 (by omega) hcols
  | ok cols => rw [hcols] at h; exact absurd h (by simp)

theorem createSchemaTables_ok_clause :
    ∀ (models : List Model) (tables : List String),
    createSchemaTables models = .ok tables →
    ∀ m ∈ models, ∃ c, createTableClause m = .ok c := by
  intro models
  induction models with
  | nil => intro tables _ m hm; simp at hm
  | cons x xs ih =>
    intro tables h m hm
    unfold createSchemaTables at h
    cases hx : createTableClause x with
    | error e => rw [hx] at h; exact absurd h (by simp)
    | ok c =>
      rw [hx] at h
      dsimp only at h
      cases hxs : createSchemaTables xs with
      | error e => rw [hxs] at h; exact absurd h (by simp)
      | ok cs =>
        rcases List.mem_cons.mp hm with rfl | hm'
        · exact ⟨c, hx⟩
        · exact ih cs hxs m hm'

/--
C6: two primary-flagged fields are accepted at definition time (`addField`
checks only the name grammar and duplicates), but `createSchema` fails for any
database containing such a model; with at most one primary-flagged field,
`createSchema` of that model never raises the multiple-primary-keys error.
-/
theorem c6_compound_primary_rejected_at_schema_time :
    (∀ (m : Model) (name : String) (fs : FieldSpec),
      isValidName name = true → m.core.getFieldWrapper name = none →
      m.addField name fs
        = .ok { m with core := { m.core with fields := m.core.fields ++ [⟨name, fs⟩] } }) ∧
    (∀ (m : Model) (db : List Model),
      2 ≤ primaryCount m.core.fields → m ∈ db → ∀ s, createSchema db ≠ .ok s) ∧
    (∀ (m : Model), primaryCount m.core.fields ≤ 1 →
      ∀ e, createSchema [m] = .error e → e ≠ .multiplePrimaryKeys m.core.name) := by
  refine ⟨?_, ?_, ?_⟩
  · intro m name fs hvalid hfresh
    unfold Model.addField
    rw [hvalid]
    unfold ModelCore.getFieldWrapper at hfresh
    rw [hfresh]
    rfl
  · intro m db h2 hmem s hok
    unfold createSchema at hok
    cases ht : createSchemaTables db with
    | error e => rw [ht] at hok; exact absurd hok (by simp)
    | ok tables =>
      obtain ⟨c, hc⟩ := createSchemaTables_ok_clause db tables ht m hmem
      have := createTableClause_ok_pk_bound m c hc
      omega
  · intro m hb e h hmp
    unfold createSchema at h
    cases ht : createSchemaTables [m] with
    | ok tables => rw [ht] at h; exact absurd h (by simp)
    | error e0 =>
      rw [ht] at h
      injection h with h
      subst h
      unfold createSchemaTables at ht
      cases hx : createTableClause m with
      | error e1 =>
        rw [hx] at ht
        injection ht with ht
        exact createTableClause_error_not_multiPK m e1 hb hx (ht.trans hmp)
      | ok c =>
        rw [hx] at ht
        dsimp only at ht
        exact absurd ht (by simp [createSchemaTables])

/-- Fixture: model `dup` with two primary-flagged fields. -/
def dupCore : ModelCore :=
  ⟨2, "dup", [⟨"a", { primaryKey := some true }⟩, ⟨"b", { primaryKey := some true }⟩]⟩

def dupModel : Model := ⟨dupCore, [], [], none⟩

/-- C6 witness: adding a second primary-flagged field succeeds, schema
emission for the two-primary model fails with the multiple-primary-keys
error, and a single-primary model's schema emits fine. -/
theorem c6_compound_primary_rejected_at_schema_time_witness :
    fooModel.addField "b" { primaryKey := some true }
      = .ok { fooModel with core := { fooModel.core with
          fields := fooModel.core.fields ++ [⟨"b", { primaryKey := some true }⟩] } } ∧
    createSchema [dupModel] ≠ .ok "CREATE TABLE dup(a PRIMARY KEY, b PRIMARY KEY)" ∧
    createSchema [dupModel] = .error (.multiplePrimaryKeys "dup") ∧
    createSchema [fooModel] = .ok "CREATE TABLE foo(id INTEGER PRIMARY KEY)" := by
  refine ⟨?_, ?_, rfl, rfl⟩
  · exact c6_compound_primary_rejected_at_schema_time.1 fooModel "b"
      { primaryKey := some true } rfl rfl
  · exact c6_compound_primary_rejected_at_schema_time.2.1 dupModel [dupModel]
      (by decide) (by simp) _

/-! ### C2 -/

/-- `FindOptions` with a limit, an offset and a total-count request. -/
def c2opts : FindOptions :=
  { limit := some 5, offset := some 10, fetchTotalCount := some true }

/--
C2 counterexample: the claim says the COUNT(*) query contains neither the
LIMIT nor the OFFSET constraint.  The source filters only constraints starting
with `LIMIT`, so with `limit: 5, offset: 10` the built count query ends in the
retained `OFFSET 10` constraint.
-/
theorem c2_counterexample_offset_retained :
    (buildSelect fooModel c2opts constSupply).map (fun r => r.countQuery)
      = .ok (some ("SELECT COUNT(*) FROM foo   " ++ "OFFSET 10")) ∧
    (buildSelect fooModel c2opts constSupply).map (fun r => r.selectQuery)
      = .ok "SELECT foo.id AS \"foo.id\" FROM foo   LIMIT 5 OFFSET 10" :=
  ⟨rfl, rfl⟩

/-- The constraint list behind the source's `null`-or-array `_constraints`. -/
def optConstraints : Option (List String) → List String
| none => []
| some cs => cs

theorem jsStartsWith_offset_limit (s : String) :
    jsStartsWith ("OFFSET " ++ s) "LIMIT" = false := by
  cases s with
  | mk data => rfl

theorem jsStartsWith_limit_limit (s : String) :
    jsStartsWith ("LIMIT " ++ s) "LIMIT" = true := by
  cases s with
  | mk data => rfl

theorem addConstraint_opt (st : QBState) (c : String) :
    optConstraints (st.addConstraint c).constraints = optConstraints st.constraints ++ [c] := by
  unfold QBState.addConstraint optConstraints
  cases st.constraints <;> simp

/-- The LIMIT/OFFSET constraint entries `_buildConstraints` appends. -/
def limOffEntries (options : FindOptions) : List String :=
  (match options.limit with | some l => ["LIMIT " ++ toString l] | none => [])
  ++ (match options.offset with | some o => ["OFFSET " ++ toString o] | none => [])

theorem buildConstraints_opt (options : FindOptions) (st : QBState) :
    optConstraints (buildConstraints options st).constraints
      = optConstraints st.constraints ++ limOffEntries options := by
  unfold buildConstraints limOffEntries
  cases hl : options.limit with
  | none =>
    cases ho : options.offset with
    | none => simp
    | some o => simp [addConstraint_opt]
  | some l =>
    cases ho : options.offset with
    | none => simp [addConstraint_opt]
    | some o => simp [addConstraint_opt]

theorem buildSort_opt_mono (model : Model) (options : FindOptions) (st st' : QBState)
    (h : buildSort model options st = .ok st') :
    ∃ tail, optConstraints st'.constraints = optConstraints st.constraints ++ tail := by
  unfold buildSort at h
  dsimp only at h
  split at h
  · exact absurd h (by simp)
  · split at h
    all_goals split at h
    all_goals injection h with h
    all_goals subst h
    all_goals first
      | exact ⟨_, addConstraint_opt st _⟩
      | exact ⟨[], (List.append_nil _).symm⟩

theorem addJoinOption_constraints (model : Model) (st : QBState) (jo : JoinOption)
    (st' : QBState) (h : addJoinOption model st jo = .ok st') :
    st'.constraints = st.constraints := by
  unfold addJoinOption at h
  dsimp only at h
  cases hj : jo.relationData.getJoinCondition model.core jo.relationData.name
      jo.relationData.companionModel with
  | error e => rw [hj] at h; exact absurd h (by simp)
  | ok cond =>
    rw [hj] at h
    injection h with h
    rw [← h]
    rfl

theorem foldlM_addJoinOption_constraints (model : Model) :
    ∀ (js : List JoinOption) (st st' : QBState),
    js.foldlM (addJoinOption model) st = .ok st' →
    st'.constraints = st.constraints := by
  intro js
  induction js with
  | nil =>
    intro st st' h
    injection h with h
    rw [h]
  | cons j rest ih =>
    intro st st' h
    rw [List.foldlM_cons] at h
    cases haj : addJoinOption model st j with
    | error e =>
      rw [haj] at h
      have hb : ((Except.error e : Except OrmError QBState)
            >>= fun s => rest.foldlM (addJoinOption model) s)
          = (Except.error e : Except OrmError QBState) := rfl
      rw [hb] at h
      exact absurd h (by simp)
    | ok st1 =>
      rw [haj] at h
      have hb : ((Except.ok st1 : Except OrmError QBState)
            >>= fun s => rest.foldlM (addJoinOption model) s)
          = rest.foldlM (addJoinOption model) st1 := rfl
      rw [hb] at h
      rw [ih st1 st' h]
      exact addJoinOption_constraints model st j st1 haj

theorem buildJoins_constraints (model : Model) (options : FindOptions) (st st' : QBState)
    (h : buildJoins model options st = .ok st') :
    st'.constraints = st.constraints := by
  unfold buildJoins at h
  cases hj : options.join with
  | none => rw [hj] at h; injection h with h; rw [h]
  | some js =>
    rw [hj] at h
    exact foldlM_addJoinOption_constraints model js st st' h

theorem selectPrep_constraints_decomp (model : Model) (options : FindOptions)
    (supply : Nat → Nat) (a : SelectAssembly)
    (h : selectPrep model options supply = .ok a) :
    ∃ base tail, optConstraints a.constraints
      = base ++ limOffEntries options ++ tail := by
  unfold selectPrep at h
  cases hw : buildWhereTop model (options.where_.getD .nil) supply with
  | error e => rw [hw] at h; exact absurd h (by simp)
  | ok p =>
    rw [hw] at h
    obtain ⟨children, st0⟩ := p
    dsimp only at h
    cases hsort : buildSort model options (buildConstraints options st0) with
    | error e => rw [hsort] at h; exact absurd h (by simp)
    | ok st2 =>
      rw [hsort] at h
      dsimp only at h
      cases hjoin : buildJoins model options st2 with
      | error e => rw [hjoin] at h; exact absurd h (by simp)
      | ok st3 =>
        rw [hjoin] at h
        injection h with h
        obtain ⟨tail, htail⟩ := buildSort_opt_mono model options _ st2 hsort
        refine ⟨optConstraints st0.constraints, tail, ?_⟩
        rw [← h]
        dsimp only
        rw [buildJoins_constraints model options st2 st3 hjoin, htail,
            buildConstraints_opt]

theorem constraintsStr_eq (oc : Option (List String)) :
    (match oc with | none => "" | some cs => joinWith " " cs)
      = joinWith " " (optConstraints oc) := by
  cases oc <;> rfl

theorem countConstraintsStr_eq (oc : Option (List String)) :
    (match oc with
      | none => ""
      | some cs => joinWith " " (cs.filter (fun c => !(jsStartsWith c "LIMIT"))))
      = joinWith " " ((optConstraints oc).filter (fun c => !(jsStartsWith c "LIMIT"))) := by
  cases oc <;> rfl

/--
C2 amended: when a total count is requested, the built COUNT(*) query reuses
exactly the same join string and WHERE string as the main select query, and
its constraint suffix is the select query's constraint list with exactly the
constraints starting with `LIMIT` removed: the LIMIT constraint is dropped but
a given OFFSET constraint is retained (contrary to the claim's "neither LIMIT
nor OFFSET").
-/
theorem c2_count_query_drops_limit_keeps_offset :
    ∀ (model : Model) (options : FindOptions) (supply : Nat → Nat) (a : SelectAssembly),
    selectPrep model options supply = .ok a →
    options.fetchTotalCount = some true →
    (buildSelect model options supply = .ok
      { selectQuery := "SELECT " ++ joinWith ", " a.columns ++ " FROM " ++ model.core.name
          ++ " " ++ a.joinsStr ++ " " ++ a.whereStr ++ " "
          ++ joinWith " " (optConstraints a.constraints),
        bound := a.bound,
        countQuery := some ("SELECT COUNT(*) FROM " ++ model.core.name ++ " " ++ a.joinsStr
          ++ " " ++ a.whereStr ++ " "
          ++ joinWith " " ((optConstraints a.constraints).filter
              (fun c => !(jsStartsWith c "LIMIT")))) }) ∧
    (∀ l, options.limit = some l →
      ("LIMIT " ++ toString l) ∈ optConstraints a.constraints ∧
      ("LIMIT " ++ toString l) ∉ (optConstraints a.constraints).filter
          (fun c => !(jsStartsWith c "LIMIT"))) ∧
    (∀ o, options.offset = some o →
      ("OFFSET " ++ toString o) ∈ (optConstraints a.constraints).filter
          (fun c => !(jsStartsWith c "LIMIT"))) := by
  intro model options supply a hprep hftc
  obtain ⟨base, tail, hdecomp⟩ := selectPrep_constraints_decomp model options supply a hprep
  refine ⟨?_, ?_, ?_⟩
  · unfold buildSelect
    rw [hprep]
    dsimp only
    rw [hftc, if_pos rfl, constraintsStr_eq, countConstraintsStr_eq]
  · intro l hl
    have hmem : ("LIMIT " ++ toString l) ∈ optConstraints a.constraints := by
      rw [hdecomp]
      apply List.mem_append.mpr
      apply Or.inl
      apply List.mem_append.mpr
      apply Or.inr
      unfold limOffEntries
      rw [hl]
      apply List.mem_append.mpr
      exact Or.inl (List.mem_singleton.mpr rfl)
    refine ⟨hmem, ?_⟩
    intro hmf
    have := (List.mem_filter.mp hmf).2
    rw [jsStartsWith_limit_limit] at this
    simp at this
  · intro o ho
    have hmem : ("OFFSET " ++ toString o) ∈ optConstraints a.constraints := by
      rw [hdecomp]
      apply List.mem_append.mpr
      apply Or.inl
      apply List.mem_append.mpr
      apply Or.inr
      unfold limOffEntries
      rw [ho]
      apply List.mem_append.mpr
      exact Or.inr (List.mem_singleton.mpr rfl)
    apply List.mem_filter.mpr
    refine ⟨hmem, ?_⟩
    rw [jsStartsWith_offset_limit]
    rfl

/-- The locals `_buildSelect` computes for `fooModel` under `c2opts`. -/
def c2assembly : SelectAssembly :=
  ⟨["foo.id AS \"foo.id\""], "", "", some ["LIMIT 5", "OFFSET 10"], []⟩

/-- C2 witness: at `limit 5, offset 10` the LIMIT constraint is present in the
builder's constraints and dropped from the count query, while the OFFSET
constraint survives the filter; the assembled queries are shown concretely. -/
theorem c2_count_query_drops_limit_keeps_offset_witness :
    selectPrep fooModel c2opts constSupply = .ok c2assembly ∧
    ("LIMIT " ++ toString (5 : Int)) ∈ optConstraints c2assembly.constraints ∧
    ("OFFSET " ++ toString (10 : Int)) ∈ (optConstraints c2assembly.constraints).filter
        (fun c => !(jsStartsWith c "LIMIT")) ∧
    buildSelect fooModel c2opts constSupply
      = .ok ⟨"SELECT foo.id AS \"foo.id\" FROM foo   LIMIT 5 OFFSET 10", [],
             some "SELECT COUNT(*) FROM foo   OFFSET 10"⟩ :=
  ⟨rfl,
   ((c2_count_query_drops_limit_keeps_offset fooModel c2opts constSupply c2assembly
      rfl rfl).2.1 5 rfl).1,
   (c2_count_query_drops_limit_keeps_offset fooModel c2opts constSupply c2assembly
      rfl rfl).2.2 10 rfl,
   rfl⟩
